import Mathlib

/-!
Verification development for the PlayMatch backend lobby session coordinator.

The definitions below are a shallow embedding of the Go source files:
  * internal/models (User, Lobby, Message, Game records),
  * internal/handler/user_handler.go (the lobby / chat handler functions:
    CreateLobby, JoinLobby, LeaveLobby, KickMember, UpdateLobby,
    GetLobbyByID, plus the DTO binding rules),
  * internal/hub (the per-lobby event hub: Subscribe, Unsubscribe, Broadcast).

Persisted state is modelled as lists of records (GORM tables).  A lobby's
member set is not stored on the lobby row: it is the set of users whose
current_lobby_id column points at the lobby (a GORM has-many on
CurrentLobbyID), and the embedding derives it the same way.

Persistence failures: every fallible write a handler performs is driven by
an oracle (Nat → Bool); `oracle k = true` means the k-th write of that
handler call returns an error.  Writes whose error the Go code checks lead
to the code's rollback/return path; writes whose error the Go code ignores
simply do not happen while the handler continues.  `noFail` is the oracle
under which every write succeeds.

Ghost instrumentation: the Go schema has no join-timestamp column, but the
specification speaks about the "earliest-joined remaining member".  The
`joinSeq` field of `GoUser` and the `nextSeq` counter are specification
ghost state recording the order in which memberships were established; no
transition reads them to make a decision.
-/

namespace PlayMatch

/-- A user row (internal/models/user.go together with the lobby branch of
the model in src/unnamed/part_002): identity, nickname, and the optional
current_lobby_id foreign key.  `joinSeq` is ghost state (see module header). -/
structure GoUser where
  id : Nat
  nickname : String
  currentLobbyID : Option Nat
  joinSeq : Option Nat := none
  deriving DecidableEq

/-- A lobby row (internal/models/lobby.go): game reference, host reference,
title, description and the max_players capacity (a Go int, hence `Int`). -/
structure GoLobby where
  id : Nat
  gameID : Nat
  hostID : Nat
  title : String
  description : String
  maxPlayers : Int
  deriving DecidableEq

/-- A game row (internal/models/game.go), reduced to the fields the lobby
handlers read (the id for comparison, the name for the system message). -/
structure GoGame where
  id : Nat
  name : String
  deriving DecidableEq

/-- MessageType from internal/models (src/unnamed/part_002). -/
inductive GoMessageType where
  | text
  | system
  deriving DecidableEq

/-- A chat message row: lobby reference, optional author (none for system
messages), kind, content. -/
structure GoMessage where
  lobbyID : Nat
  userID : Option Nat
  type : GoMessageType
  content : String
  deriving DecidableEq

/-- An event handed to the hub (internal/hub, src/unnamed/part_003):
a type tag and a payload.  The payload is modelled as the string the
corresponding response-builder would serialize. -/
structure Event where
  type : String
  payload : String
  deriving DecidableEq

/-- The persistent database state the lobby handlers read and write:
the users, lobbies, games and messages tables, the auto-increment counter
for lobby primary keys, and the ghost join-order counter. -/
structure DBState where
  users : List GoUser
  lobbies : List GoLobby
  games : List GoGame
  messages : List GoMessage
  nextLobbyID : Nat
  nextSeq : Nat
  deriving DecidableEq

/-- HTTP status classes the handlers answer with. -/
inductive HStatus where
  | ok
  | created
  | validationError
  | conflict
  | notFound
  | forbidden
  | internalError
  deriving DecidableEq

/-- A handler result: status class plus the message string of the JSON body. -/
structure HResult where
  status : HStatus
  message : String
  deriving DecidableEq

/-- What one handler call produces: the response, the database state after
the call, and the trace of events it handed to `hub.GlobalHub.Broadcast`,
in call order. -/
structure Outcome where
  result : HResult
  state : DBState
  events : List Event
  deriving DecidableEq

/-- The zero value of the Go User struct (what `var user models.User`
holds when a read fails and the error is ignored). -/
def zeroUser : GoUser := { id := 0, nickname := "", currentLobbyID := none }

/-- The zero value of the Go Lobby struct. -/
def zeroLobby : GoLobby :=
  { id := 0, gameID := 0, hostID := 0, title := "", description := "", maxPlayers := 0 }

/-- The zero value of the Go Game struct. -/
def zeroGame : GoGame := { id := 0, name := "" }

/-- database.DB.First(&user, id): first users row with the given primary key. -/
def findUser (st : DBState) (uid : Nat) : Option GoUser :=
  st.users.find? (fun u => u.id == uid)

/-- database.DB.First(&lobby, id): first lobbies row with the given primary key. -/
def findLobby (st : DBState) (lid : Nat) : Option GoLobby :=
  st.lobbies.find? (fun l => l.id == lid)

/-- database.DB.First(&game, id): first games row with the given primary key. -/
def findGame (st : DBState) (gid : Nat) : Option GoGame :=
  st.games.find? (fun g => g.id == gid)

/-- Preload("Members"): the users whose current_lobby_id points at the lobby
(the has-many relation on CurrentLobbyID), in table order. -/
def lobbyMembers (st : DBState) (lid : Nat) : List GoUser :=
  st.users.filter (fun u => u.currentLobbyID == some lid)

/-- DB.Model(&user).Update("current_lobby_id", v) keyed by the user's primary
key.  Assigns the ghost join sequence number when a membership is set and
clears it when the membership is cleared; always bumps the ghost counter. -/
def setUserLobby (st : DBState) (uid : Nat) (v : Option Nat) : DBState :=
  { st with
      users := st.users.map (fun u =>
        if u.id == uid then
          { u with currentLobbyID := v,
                   joinSeq := if v.isSome then some st.nextSeq else none }
        else u),
      nextSeq := st.nextSeq + 1 }

/-- DB.Model(&lobby).Update("host_id", hid) keyed by the lobby's primary key. -/
def updateLobbyHost (st : DBState) (lid : Nat) (hid : Nat) : DBState :=
  { st with
      lobbies := st.lobbies.map (fun l =>
        if l.id == lid then { l with hostID := hid } else l) }

/-- DB.Save(&lobby): write every column of the row with the lobby's primary key. -/
def saveLobby (st : DBState) (l : GoLobby) : DBState :=
  { st with
      lobbies := st.lobbies.map (fun x => if x.id == l.id then l else x) }

/-- DB.Delete(&lobby): remove the rows with the lobby's primary key. -/
def deleteLobby (st : DBState) (lid : Nat) : DBState :=
  { st with lobbies := st.lobbies.filter (fun l => !(l.id == lid)) }

/-- DB.Create(&message): append a message row (append-only table). -/
def appendMessage (st : DBState) (m : GoMessage) : DBState :=
  { st with messages := st.messages ++ [m] }

/-- The serialized PublicUserResponse used as an event payload
(buildPublicUserResponse with viewer 0), summarized by the nickname. -/
def userPayload (u : GoUser) : String :=
  "user:" ++ u.nickname

/-- The serialized LobbyResponse used as an event payload, summarized by id. -/
def lobbyPayload (l : GoLobby) : String :=
  "lobby:" ++ toString l.id

/-- The lobby_deleted payload, gin.H with the lobby id. -/
def lobbyIdPayload (lid : Nat) : String :=
  "lobby_id:" ++ toString lid

/-- The serialized GameResponse used as an event payload. -/
def gamePayload (g : GoGame) : String :=
  "game:" ++ g.name

/-- The oracle under which every persistence write succeeds. -/
def noFail : Nat → Bool := fun _ => false

/-- The JSON body of a create/update lobby request before gin binding:
`none` models an absent field (Go decodes it to the zero value). -/
structure RawLobbyInput where
  gameID : Option Nat
  description : Option String
  maxPlayers : Option Int
  deriving DecidableEq

/-- The bound LobbyInput DTO (user_handler.go lines 703-707). -/
structure LobbyInput where
  gameID : Nat
  description : String
  maxPlayers : Int
  deriving DecidableEq

/-- c.ShouldBindJSON for LobbyInput.  GameID carries binding:"required"
(zero value rejected); MaxPlayers carries binding:"required,min=2,max=10".
An absent field decodes to the zero value, so absence fails "required";
min=2 subsumes the required check on MaxPlayers. -/
def bindLobbyInput (raw : RawLobbyInput) : Option LobbyInput :=
  let g := raw.gameID.getD 0
  let m := raw.maxPlayers.getD 0
  if g ≠ 0 ∧ 2 ≤ m ∧ m ≤ 10 then
    some { gameID := g, description := raw.description.getD "", maxPlayers := m }
  else
    none

/-- The validation/read phase of JoinLobby (user_handler.go lines 1080-1097):
load the caller (read error ignored, leaving the zero User), reject if the
caller already has a lobby, load the lobby with its members or answer
NotFound, reject with the full conflict when len(Members) >= MaxPlayers.
On success it returns the user and lobby rows that the write phase uses. -/
def joinValidate (st : DBState) (userID lobbyID : Nat) :
    Except HResult (GoUser × GoLobby) :=
  let user := (findUser st userID).getD zeroUser
  if user.currentLobbyID.isSome then
    .error { status := .conflict, message := "User is already in a lobby" }
  else
    match findLobby st lobbyID with
    | none => .error { status := .notFound, message := "Lobby not found" }
    | some lobby =>
        if ((lobbyMembers st lobby.id).length : Int) ≥ lobby.maxPlayers then
          .error { status := .conflict, message := "Lobby is full" }
        else
          .ok (user, lobby)

/-- The write phase of JoinLobby (user_handler.go lines 1099-1118): update
the caller's current_lobby_id (write 0; the Go code discards the error),
create the "joined" system message (write 1; error also discarded),
broadcast user_joined, answer 200.  There is no transaction and no
re-validation of the capacity here. -/
def joinCommit (st : DBState) (user : GoUser) (lobby : GoLobby)
    (oracle : Nat → Bool) : Outcome :=
  let st1 := if oracle 0 then st else setUserLobby st user.id (some lobby.id)
  let st2 :=
    if oracle 1 then st1
    else appendMessage st1
      { lobbyID := lobby.id, userID := none, type := .system,
        content := "User " ++ user.nickname ++ " joined the lobby." }
  { result := { status := .ok, message := "Joined lobby successfully" },
    state := st2,
    events := [{ type := "user_joined", payload := userPayload user }] }

/-- JoinLobby (user_handler.go lines 1076-1119): the validation phase
followed, on success, by the write phase against the same state. -/
def joinLobby (st : DBState) (userID lobbyID : Nat) (oracle : Nat → Bool) :
    Outcome :=
  match joinValidate st userID lobbyID with
  | .error e => { result := e, state := st, events := [] }
  | .ok (user, lobby) => joinCommit st user lobby oracle

/-- LeaveLobby (user_handler.go lines 1130-1212).  Writes in order:
0 = clear current_lobby_id (checked, rollback on failure),
1 = "left" system message inside the transaction (error discarded),
2 = delete the lobby / transfer the host (checked, rollback on failure),
3 = "now the host" system message (error discarded).
The lobby_deleted and host_changed broadcasts are issued inside the
transaction block, the user_left broadcast after commit; the commit's own
error is not checked by the Go code and the commit is modelled as
succeeding. -/
def leaveLobby (st : DBState) (userID : Nat) (oracle : Nat → Bool) : Outcome :=
  match findUser st userID with
  | none => { result := { status := .notFound, message := "User is not in a lobby" },
              state := st, events := [] }
  | some user =>
      match user.currentLobbyID with
      | none => { result := { status := .notFound, message := "User is not in a lobby" },
                  state := st, events := [] }
      | some lid =>
          let lobby := (findLobby st lid).getD zeroLobby
          let members := match findLobby st lid with
            | some l => lobbyMembers st l.id
            | none => []
          if oracle 0 then
            { result := { status := .internalError, message := "Failed to leave lobby" },
              state := st, events := [] }
          else
            let st1 := setUserLobby st user.id none
            let st2 :=
              if oracle 1 then st1
              else appendMessage st1
                { lobbyID := lobby.id, userID := none, type := .system,
                  content := "User " ++ user.nickname ++ " left the lobby." }
            if members.length == 1 && (members.headD zeroUser).id == user.id then
              if oracle 2 then
                { result := { status := .internalError,
                              message := "Failed to delete empty lobby" },
                  state := st, events := [] }
              else
                { result := { status := .ok, message := "Left lobby successfully" },
                  state := deleteLobby st2 lobby.id,
                  events := [{ type := "lobby_deleted", payload := lobbyIdPayload lobby.id },
                             { type := "user_left", payload := userPayload user }] }
            else if lobby.hostID == user.id then
              let nextHost := (members.find? (fun m => !(m.id == user.id))).getD zeroUser
              if !(nextHost.id == 0) then
                if oracle 2 then
                  { result := { status := .internalError,
                                message := "Failed to transfer host" },
                    state := st, events := [] }
                else
                  let st3 := updateLobbyHost st2 lobby.id nextHost.id
                  let st4 :=
                    if oracle 3 then st3
                    else appendMessage st3
                      { lobbyID := lobby.id, userID := none, type := .system,
                        content := "User " ++ nextHost.nickname ++ " is now the host." }
                  { result := { status := .ok, message := "Left lobby successfully" },
                    state := st4,
                    events := [{ type := "host_changed", payload := userPayload nextHost },
                               { type := "user_left", payload := userPayload user }] }
              else
                { result := { status := .ok, message := "Left lobby successfully" },
                  state := st2,
                  events := [{ type := "user_left", payload := userPayload user }] }
            else
              { result := { status := .ok, message := "Left lobby successfully" },
                state := st2,
                events := [{ type := "user_left", payload := userPayload user }] }

/-- CreateLobby (user_handler.go lines 938-1001).  Writes in order, inside
a transaction: 0 = create the lobby row (checked), 1 = save the user's
current_lobby_id (checked); after commit: 2 = the "created the lobby"
system message, explicitly best-effort outside the transaction (error
discarded), then the lobby_created broadcast. -/
def createLobby (st : DBState) (userID : Nat) (raw : RawLobbyInput)
    (oracle : Nat → Bool) : Outcome :=
  match findUser st userID with
  | none => { result := { status := .notFound, message := "User not found" },
              state := st, events := [] }
  | some user =>
      if user.currentLobbyID.isSome then
        { result := { status := .conflict, message := "User is already in a lobby" },
          state := st, events := [] }
      else
        match bindLobbyInput raw with
        | none => { result := { status := .validationError, message := "invalid input" },
                    state := st, events := [] }
        | some input =>
            if oracle 0 then
              { result := { status := .internalError, message := "Failed to create lobby" },
                state := st, events := [] }
            else
              let lid := st.nextLobbyID
              let lobby : GoLobby :=
                { id := lid, gameID := input.gameID, hostID := user.id,
                  title := "", description := input.description,
                  maxPlayers := input.maxPlayers }
              let st1 := { st with lobbies := st.lobbies ++ [lobby],
                                   nextLobbyID := lid + 1 }
              if oracle 1 then
                { result := { status := .internalError,
                              message := "Failed to update user's lobby" },
                  state := st, events := [] }
              else
                let st2 := setUserLobby st1 user.id (some lid)
                let st3 :=
                  if oracle 2 then st2
                  else appendMessage st2
                    { lobbyID := lid, userID := none, type := .system,
                      content := "User " ++ user.nickname ++ " created the lobby." }
                { result := { status := .created, message := "created" },
                  state := st3,
                  events := [{ type := "lobby_created", payload := lobbyPayload lobby }] }

/-- KickMember (user_handler.go lines 1296-1341).  Writes in order:
0 = clear the target's current_lobby_id (error discarded),
1 = the "was kicked" system message (error discarded); then the
user_kicked broadcast. -/
def kickMember (st : DBState) (hostID lobbyID targetID : Nat)
    (oracle : Nat → Bool) : Outcome :=
  match findLobby st lobbyID with
  | none => { result := { status := .notFound, message := "Lobby not found" },
              state := st, events := [] }
  | some lobby =>
      if !(lobby.hostID == hostID) then
        { result := { status := .forbidden, message := "Only the host can kick members" },
          state := st, events := [] }
      else if lobby.hostID == targetID then
        { result := { status := .validationError, message := "Host cannot kick themselves" },
          state := st, events := [] }
      else
        match st.users.find? (fun u => u.id == targetID && u.currentLobbyID == some lobbyID) with
        | none => { result := { status := .notFound,
                                message := "Member not found in this lobby" },
                    state := st, events := [] }
        | some member =>
            let st1 := if oracle 0 then st else setUserLobby st member.id none
            let st2 :=
              if oracle 1 then st1
              else appendMessage st1
                { lobbyID := lobby.id, userID := none, type := .system,
                  content := "User " ++ member.nickname ++ " was kicked from the lobby." }
            { result := { status := .ok, message := "Member kicked successfully" },
              state := st2,
              events := [{ type := "user_kicked", payload := userPayload member }] }

/-- UpdateLobby (user_handler.go lines 1227-1282).  Reads the lobby, checks
the caller is the host, binds the input, loads the old game, writes the
three input fields with DB.Save (write 0; error discarded), reloads, and if
the game id changed appends a system message (write 1; error discarded) and
broadcasts lobby_game_changed; always broadcasts lobby_updated. -/
def updateLobby (st : DBState) (userID lobbyID : Nat) (raw : RawLobbyInput)
    (oracle : Nat → Bool) : Outcome :=
  match findLobby st lobbyID with
  | none => { result := { status := .notFound, message := "Lobby not found" },
              state := st, events := [] }
  | some lobby =>
      if !(lobby.hostID == userID) then
        { result := { status := .forbidden, message := "Only the host can update the lobby" },
          state := st, events := [] }
      else
        match bindLobbyInput raw with
        | none => { result := { status := .validationError, message := "invalid input" },
                    state := st, events := [] }
        | some input =>
            let oldGame := (findGame st lobby.gameID).getD zeroGame
            let lobby1 := { lobby with description := input.description,
                                       maxPlayers := input.maxPlayers,
                                       gameID := input.gameID }
            let st1 := if oracle 0 then st else saveLobby st lobby1
            let lobby2 := (findLobby st1 lobbyID).getD zeroLobby
            let newGame := (findGame st1 lobby2.gameID).getD zeroGame
            if !(oldGame.id == newGame.id) then
              let st2 :=
                if oracle 1 then st1
                else appendMessage st1
                  { lobbyID := lobby2.id, userID := none, type := .system,
                    content := "Lobby game changed to " ++ newGame.name ++ "." }
              { result := { status := .ok, message := "updated" },
                state := st2,
                events := [{ type := "lobby_game_changed", payload := gamePayload newGame },
                           { type := "lobby_updated", payload := lobbyPayload lobby2 }] }
            else
              { result := { status := .ok, message := "updated" },
                state := st1,
                events := [{ type := "lobby_updated", payload := lobbyPayload lobby2 }] }

/-- GetLobbyByID (user_handler.go lines 1053-1063): the lookup the handler
performs; `none` is answered as 404 Lobby not found. -/
def getLobbyByID (st : DBState) (lobbyID : Nat) : Option GoLobby :=
  findLobby st lobbyID

/-!
The event hub (internal/hub, src/unnamed/part_003).  A Client is an
unbuffered-or-buffered Go channel owned by one streaming request; the model
gives each client sink an id, an inbound capacity, the queue of serialized
messages currently buffered, and a closed flag (close(client) in Go).
`Hub.lobbies` is the map from lobby id to the set of subscribed client ids,
kept as an association list; `Hub.sinks` holds the channel state of every
client.  The sync.RWMutex serializes Subscribe/Unsubscribe/Broadcast, so
each is modelled as one atomic function on the hub state.
-/

/-- The delivery end of one subscriber's channel. -/
structure Sink where
  id : Nat
  capacity : Nat
  buffer : List String
  closed : Bool
  deriving DecidableEq

/-- The hub state: per-lobby subscriber sets plus every client's channel. -/
structure Hub where
  lobbies : List (Nat × List Nat)
  sinks : List Sink
  deriving DecidableEq

/-- json.Marshal of an Event, performed once per Broadcast call; the exact
byte encoding is irrelevant to the claims, only that every recipient gets
the same serialization of the same event. -/
def marshal (e : Event) : String :=
  "type=" ++ e.type ++ ";payload=" ++ e.payload

/-- The select with a default branch inside Broadcast: a non-blocking send.
If the channel can take the message it is enqueued, otherwise the delivery
is dropped for that sink and the channel is left as it was. -/
def sendNonBlocking (s : Sink) (msg : String) : Sink :=
  if s.buffer.length < s.capacity then { s with buffer := s.buffer ++ [msg] } else s

/-- Hub.Subscribe (src/unnamed/part_003 lines 35-44): create the lobby's
subscriber set on first subscription and add the client to it (map-insert
set semantics, so an already-present client id is not duplicated). -/
def Hub.subscribe (h : Hub) (lobbyID : Nat) (s : Sink) : Hub :=
  match h.lobbies.find? (fun p => p.1 == lobbyID) with
  | none => { lobbies := h.lobbies ++ [(lobbyID, [s.id])], sinks := h.sinks ++ [s] }
  | some p =>
      if p.2.contains s.id then h
      else
        { lobbies := h.lobbies.map (fun q =>
            if q.1 == lobbyID then (q.1, q.2 ++ [s.id]) else q),
          sinks := h.sinks ++ [s] }

/-- Hub.Unsubscribe (src/unnamed/part_003 lines 46-59): only when the lobby
has a subscriber set and the client is in it, remove the client, close its
channel, and drop the lobby's entry if the set became empty; in every other
case the hub is left untouched (this is what makes the call idempotent and
prevents a double close). -/
def Hub.unsubscribe (h : Hub) (lobbyID clientID : Nat) : Hub :=
  match h.lobbies.find? (fun p => p.1 == lobbyID) with
  | none => h
  | some p =>
      if p.2.contains clientID then
        let remaining := p.2.filter (fun x => !(x == clientID))
        { lobbies :=
            if remaining.isEmpty then
              h.lobbies.filter (fun q => !(q.1 == lobbyID))
            else
              h.lobbies.map (fun q => if q.1 == lobbyID then (q.1, remaining) else q),
          sinks := h.sinks.map (fun s =>
            if s.id == clientID then { s with closed := true } else s) }
      else h

/-- Hub.Broadcast (src/unnamed/part_003 lines 62-83): with no subscriber set
for the lobby nothing happens; otherwise the event is serialized once and a
non-blocking send of that one serialization is attempted to every
subscribed client.  (A json.Marshal failure would also return with no
deliveries; serialization of the modelled events is total.) -/
def Hub.broadcast (h : Hub) (lobbyID : Nat) (e : Event) : Hub :=
  match h.lobbies.find? (fun p => p.1 == lobbyID) with
  | none => h
  | some p =>
      let msg := marshal e
      { h with sinks := h.sinks.map (fun s =>
          if p.2.contains s.id then sendNonBlocking s msg else s) }

/-!
Reachability.  The public lobby transitions, an operation type over them,
and the states reachable from a fresh database (arbitrary registered users,
no lobbies) by any sequence of calls under any persistence-failure oracles.
-/

/-- One public lobby transition together with its request data. -/
inductive Op where
  | create (hostID : Nat) (raw : RawLobbyInput)
  | join (userID lobbyID : Nat)
  | leave (userID : Nat)
  | kick (hostID lobbyID targetID : Nat)
  | update (hostID lobbyID : Nat) (raw : RawLobbyInput)

/-- Whether the operation is an UpdateLobby call. -/
def Op.isUpdate : Op → Bool
  | .update _ _ _ => true
  | _ => false

/-- The database state after running one transition. -/
def applyOp (st : DBState) (op : Op) (oracle : Nat → Bool) : DBState :=
  match op with
  | .create uid raw => (createLobby st uid raw oracle).state
  | .join uid lid => (joinLobby st uid lid oracle).state
  | .leave uid => (leaveLobby st uid oracle).state
  | .kick hid lid tid => (kickMember st hid lid tid oracle).state
  | .update hid lid raw => (updateLobby st hid lid raw oracle).state

/-- States reachable through the public lobby interface: start from a
database holding only registered users (distinct nonzero primary keys, no
current lobby) and a game catalog, and apply any sequence of transitions
with any failure oracles. -/
inductive Reachable : DBState → Prop where
  | init (users : List GoUser) (games : List GoGame)
      (hfree : ∀ u ∈ users, u.currentLobbyID = none)
      (hnz : ∀ u ∈ users, u.id ≠ 0)
      (hnd : (users.map GoUser.id).Nodup) :
      Reachable { users := users, lobbies := [], games := games,
                  messages := [], nextLobbyID := 1, nextSeq := 0 }
  | step (st : DBState) (op : Op) (oracle : Nat → Bool) :
      Reachable st → Reachable (applyOp st op oracle)

/-- The spec's host invariant: every existing lobby's host is one of its
members (a user row whose current_lobby_id points at the lobby). -/
def HostMember (st : DBState) : Prop :=
  ∀ l ∈ st.lobbies, ∃ u ∈ st.users, u.id = l.hostID ∧ u.currentLobbyID = some l.id

/-- The spec's capacity invariant: no existing lobby has more members than
its max_players. -/
def CapOK (st : DBState) : Prop :=
  ∀ l ∈ st.lobbies, ((lobbyMembers st l.id).length : Int) ≤ l.maxPlayers

/-- Every existing lobby's capacity lies in the validated 2..10 range. -/
def MaxInRange (st : DBState) : Prop :=
  ∀ l ∈ st.lobbies, 2 ≤ l.maxPlayers ∧ l.maxPlayers ≤ 10

/-- The inductive invariant the transition system maintains: nonzero and
distinct user keys, distinct lobby keys below the auto-increment counter,
membership pointers below the counter, the host invariant, and the
validated capacity range. -/
structure Inv (st : DBState) : Prop where
  usersNZ : ∀ u ∈ st.users, u.id ≠ 0
  usersND : (st.users.map GoUser.id).Nodup
  lobbiesND : (st.lobbies.map GoLobby.id).Nodup
  lobbiesFresh : ∀ l ∈ st.lobbies, l.id < st.nextLobbyID
  ptrFresh : ∀ u ∈ st.users, ∀ lid, u.currentLobbyID = some lid → lid < st.nextLobbyID
  hostMem : HostMember st
  maxRange : MaxInRange st

/-- Modelled from the spec: of two members, the one with the smaller ghost
join sequence number (the earlier-joined one). -/
def earlierJoined (a b : GoUser) : GoUser :=
  match a.joinSeq, b.joinSeq with
  | some i, some j => if i ≤ j then a else b
  | some _, none => a
  | none, _ => b

/-- Modelled from the spec: "a deterministic successor (earliest-joined
remaining member)" — among the lobby's members other than the departing
user, the one that joined earliest in ghost join order. -/
def earliestJoinedRemaining (st : DBState) (lid exclID : Nat) : Option GoUser :=
  match (lobbyMembers st lid).filter (fun u => !(u.id == exclID)) with
  | [] => none
  | x :: xs => some (xs.foldl earlierJoined x)

/-!
Concrete scenario states used by the counterexamples and witnesses:
four registered users A..D with ids 1..4 and one game, then short call
sequences through the handlers above.
-/

/-- Four registered users, no lobby. -/
def demoInit : DBState :=
  { users := [{ id := 1, nickname := "A", currentLobbyID := none },
              { id := 2, nickname := "B", currentLobbyID := none },
              { id := 3, nickname := "C", currentLobbyID := none },
              { id := 4, nickname := "D", currentLobbyID := none }],
    lobbies := [], games := [{ id := 5, name := "Chess" }],
    messages := [], nextLobbyID := 1, nextSeq := 0 }

/-- A well-formed create/update request body for game 5 with the given
max_players value. -/
def demoRaw (m : Int) : RawLobbyInput :=
  { gameID := some 5, description := some "fun", maxPlayers := some m }

/-- User C has created lobby 1 with max_players 3; C is host and sole member. -/
def c1St : DBState := (createLobby demoInit 3 (demoRaw 3) noFail).state

/-- User B joins lobby 1 while the persistence layer fails the
current_lobby_id update (whose error JoinLobby discards). -/
def c1Out : Outcome := joinLobby c1St 2 1 (fun n => n == 0)

/-- User C has created lobby 1 with max_players 2 (one slot remaining). -/
def c3St : DBState := (createLobby demoInit 3 (demoRaw 2) noFail).state

/-- User B's row as both concurrent JoinLobby calls read it. -/
def c3UserB : GoUser := { id := 2, nickname := "B", currentLobbyID := none }

/-- User A's row as both concurrent JoinLobby calls read it. -/
def c3UserA : GoUser := { id := 1, nickname := "A", currentLobbyID := none }

/-- Lobby 1 as both concurrent JoinLobby calls read it. -/
def c3Lobby : GoLobby :=
  { id := 1, gameID := 5, hostID := 3, title := "", description := "fun", maxPlayers := 2 }

/-- B's write phase commits first. -/
def c3AfterB : DBState := (joinCommit c3St c3UserB c3Lobby noFail).state

/-- A's write phase commits second, using A's earlier validation. -/
def c3Final : DBState := (joinCommit c3AfterB c3UserA c3Lobby noFail).state

/-- A creates lobby 1 with max_players 10. -/
def c2Step1 : DBState := (createLobby demoInit 1 (demoRaw 10) noFail).state

/-- B joins lobby 1. -/
def c2Step2 : DBState := (joinLobby c2Step1 2 1 noFail).state

/-- C joins lobby 1 (three members now). -/
def c2Step3 : DBState := (joinLobby c2Step2 3 1 noFail).state

/-- Host A lowers max_players to 2 while three members remain. -/
def c2Final : DBState := (updateLobby c2Step3 1 1 (demoRaw 2) noFail).state

/-- C created lobby 1, then B joined, then A joined: join order is C, B, A
while the members table order is A, B, C (primary-key order). -/
def c5Pre : DBState :=
  (joinLobby (joinLobby (createLobby demoInit 3 (demoRaw 10) noFail).state
    2 1 noFail).state 1 1 noFail).state

/-- Host C leaves lobby 1 of the scenario above. -/
def c5Out : Outcome := leaveLobby c5Pre 3 noFail

/-- A hub with lobby 1 subscribed by clients 7 (room in its buffer) and 8
(buffer already full). -/
def hubDemo : Hub :=
  { lobbies := [(1, [7, 8])],
    sinks := [{ id := 7, capacity := 1, buffer := [], closed := false },
              { id := 8, capacity := 1, buffer := ["old"], closed := false }] }

/-- A hub with lobby 1 subscribed by client 7 only. -/
def hubSolo : Hub :=
  { lobbies := [(1, [7])],
    sinks := [{ id := 7, capacity := 1, buffer := [], closed := false }] }

/-- A demonstration event. -/
def demoEvent : Event := { type := "new_message", payload := "user:A" }

/-!
Helper lemmas shared by the claim theorems.
-/

/-- A found lobby row carries the looked-up primary key. -/
theorem findLobby_id {st : DBState} {lid : Nat} {lobby : GoLobby}
    (hl : findLobby st lid = some lobby) : lobby.id = lid := by
  have hl' : st.lobbies.find? (fun l => l.id == lid) = some lobby := hl
  simpa using List.find?_some hl'

/-- A found user row carries the looked-up primary key. -/
theorem findUser_id {st : DBState} {uid : Nat} {user : GoUser}
    (hu : findUser st uid = some user) : user.id = uid := by
  have hu' : st.users.find? (fun u => u.id == uid) = some user := hu
  simpa using List.find?_some hu'

/-- A found user row is a row of the users table. -/
theorem findUser_mem {st : DBState} {uid : Nat} {user : GoUser}
    (hu : findUser st uid = some user) : user ∈ st.users := by
  have hu' : st.users.find? (fun u => u.id == uid) = some user := hu
  exact List.mem_of_find?_eq_some hu'

/-- After DB.Delete of a lobby id, looking that id up finds nothing. -/
theorem findLobby_deleteLobby {st : DBState} (lid : Nat) :
    findLobby (deleteLobby st lid) lid = none := by
  unfold findLobby deleteLobby
  refine List.find?_eq_none.mpr ?_
  intro x hx
  have hmem := List.mem_filter.mp hx
  simp only [Bool.not_eq_true'] at hmem
  simpa using hmem.2

/-- Appending a message changes neither the users nor the lobbies table. -/
theorem appendMessage_users (st : DBState) (m : GoMessage) :
    (appendMessage st m).users = st.users := rfl

/-- Appending a message leaves the lobbies table unchanged. -/
theorem appendMessage_lobbies (st : DBState) (m : GoMessage) :
    (appendMessage st m).lobbies = st.lobbies := rfl

/-- Updating a user's membership pointer leaves the lobbies table unchanged. -/
theorem setUserLobby_lobbies (st : DBState) (uid : Nat) (v : Option Nat) :
    (setUserLobby st uid v).lobbies = st.lobbies := rfl

/-- Searching by key commutes with mapping a key-preserving row update. -/
theorem find?_map_of_key {α : Type} (key : α → Nat) (l : List α) (k : Nat)
    (f : α → α) (hf : ∀ x, key (f x) = key x) :
    (l.map f).find? (fun x => key x == k) =
      Option.map f (l.find? (fun x => key x == k)) := by
  rw [List.find?_map]
  have hp : ((fun x => key x == k) ∘ f) = (fun x => key x == k) := by
    funext x
    simp [Function.comp, hf]
  rw [hp]

/-- DB.Save rewrites exactly the row with the saved primary key. -/
theorem findLobby_saveLobby {st : DBState} {lid : Nat} {lobby : GoLobby}
    (hl : findLobby st lid = some lobby) (l' : GoLobby) (hid : l'.id = lobby.id) :
    findLobby (saveLobby st l') lid = some l' := by
  have hlid : lobby.id = lid := findLobby_id hl
  have hl' : st.lobbies.find? (fun x => x.id == lid) = some lobby := hl
  show (st.lobbies.map fun x => if x.id == l'.id then l' else x).find?
      (fun x => x.id == lid) = some l'
  rw [find?_map_of_key GoLobby.id st.lobbies lid _ ?hkey]
  case hkey =>
    intro x
    by_cases h : x.id = l'.id
    · simp [h, hid, hlid]
    · simp [h]
  rw [hl']
  simp [hid, hlid]

/-!
Claim theorems.
-/

/-- C6: LeaveLobby by the sole remaining member of a lobby succeeds, the
lobby is deleted synchronously, a lobby_deleted then user_left event is
broadcast, and a subsequent GetLobbyByID on the lobby id answers NotFound. -/
theorem c6_sole_member_leave_deletes {user : GoUser} {lobby : GoLobby}
    (st : DBState) (uid lid : Nat)
    (hu : findUser st uid = some user) (hcur : user.currentLobbyID = some lid)
    (hl : findLobby st lid = some lobby) (hsole : lobbyMembers st lid = [user]) :
    (leaveLobby st uid noFail).result.status = HStatus.ok ∧
    getLobbyByID (leaveLobby st uid noFail).state lid = none ∧
    (leaveLobby st uid noFail).events =
      [{ type := "lobby_deleted", payload := lobbyIdPayload lobby.id },
       { type := "user_left", payload := userPayload user }] := by
  have hid : lobby.id = lid := findLobby_id hl
  have hout : leaveLobby st uid noFail =
      { result := { status := .ok, message := "Left lobby successfully" },
        state := deleteLobby
          (appendMessage (setUserLobby st user.id none)
            { lobbyID := lobby.id, userID := none, type := .system,
              content := "User " ++ user.nickname ++ " left the lobby." })
          lobby.id,
        events := [{ type := "lobby_deleted", payload := lobbyIdPayload lobby.id },
                   { type := "user_left", payload := userPayload user }] } := by
    unfold leaveLobby
    rw [hu]
    simp only [hcur, hl, Option.getD_some, hid, hsole, noFail]
    simp
  refine ⟨by rw [hout], ?_, by rw [hout]⟩
  rw [hout]
  show findLobby _ lid = none
  have : (deleteLobby
      (appendMessage (setUserLobby st user.id none)
        { lobbyID := lobby.id, userID := none, type := .system,
          content := "User " ++ user.nickname ++ " left the lobby." })
      lobby.id) =
    (deleteLobby
      (appendMessage (setUserLobby st user.id none)
        { lobbyID := lobby.id, userID := none, type := .system,
          content := "User " ++ user.nickname ++ " left the lobby." })
      lid) := by rw [hid]
  rw [this]
  exact findLobby_deleteLobby lid

/-- C6 witness: in the concrete one-member lobby of c1St (C created lobby 1
and is its sole member), C's LeaveLobby deletes the lobby and the lookup
answers NotFound. -/
theorem c6_witness :
    (leaveLobby c1St 3 noFail).result.status = HStatus.ok ∧
    getLobbyByID (leaveLobby c1St 3 noFail).state 1 = none := by
  have h := c6_sole_member_leave_deletes c1St 3 1 rfl rfl rfl (by decide)
  exact ⟨h.1, h.2.1⟩

/-- C9: UpdateLobby by the host succeeds even when the new max_players is
below the current member count; the users table (hence every member's
current lobby and the member list) is unchanged, the lobby keeps its id
and host and changes exactly its description, max_players and game
reference, and every other lobby row is untouched. -/
theorem c9_update_below_capacity {lobby : GoLobby} {input : LobbyInput}
    (st : DBState) (uid lid : Nat) (raw : RawLobbyInput)
    (hl : findLobby st lid = some lobby) (hhost : lobby.hostID = uid)
    (hbind : bindLobbyInput raw = some input)
    (hbelow : input.maxPlayers < ((lobbyMembers st lid).length : Int)) :
    (updateLobby st uid lid raw noFail).result.status = HStatus.ok ∧
    (updateLobby st uid lid raw noFail).state.users = st.users ∧
    (∀ k, lobbyMembers (updateLobby st uid lid raw noFail).state k =
      lobbyMembers st k) ∧
    findLobby (updateLobby st uid lid raw noFail).state lid =
      some { lobby with description := input.description,
                        maxPlayers := input.maxPlayers,
                        gameID := input.gameID } ∧
    (∀ l ∈ st.lobbies, l.id ≠ lid →
      l ∈ (updateLobby st uid lid raw noFail).state.lobbies) := by
  have hlid : lobby.id = lid := findLobby_id hl
  have hsave : findLobby (saveLobby st { lobby with description := input.description, maxPlayers := input.maxPlayers, gameID := input.gameID }) lid = some { lobby with description := input.description, maxPlayers := input.maxPlayers, gameID := input.gameID } :=
    findLobby_saveLobby hl _ rfl
  have hmem : ∀ l ∈ st.lobbies, l.id ≠ lid → l ∈ (saveLobby st { lobby with description := input.description, maxPlayers := input.maxPlayers, gameID := input.gameID }).lobbies := by
    intro l hlmem hne
    show l ∈ st.lobbies.map _
    refine List.mem_map.mpr ⟨l, hlmem, ?_⟩
    have hfalse : (l.id == lobby.id) = false := by
      rw [hlid]
      exact beq_eq_false_iff_ne.mpr hne
    simp [hfalse]
  have hguard : (lobby.hostID == uid) = true := beq_iff_eq.mpr hhost
  unfold updateLobby
  rw [hl, hbind]
  simp only [hguard, Bool.not_true, Bool.false_eq_true, if_false, noFail, ite_false]
  split
  · exact ⟨rfl, rfl, fun k => rfl, hsave, hmem⟩
  · exact ⟨rfl, rfl, fun k => rfl, hsave, hmem⟩

/-- C9 witness: in the three-member lobby of c2Step3, host A's update to
max_players 2 succeeds and leaves the member list unchanged. -/
theorem c9_witness :
    (updateLobby c2Step3 1 1 (demoRaw 2) noFail).result.status = HStatus.ok ∧
    lobbyMembers c2Final 1 = lobbyMembers c2Step3 1 := by
  have h := c9_update_below_capacity c2Step3 1 1 (demoRaw 2) rfl rfl rfl (by decide)
  exact ⟨h.1, h.2.2.1 1⟩

/-- A list that does not hold an element does not contain it. -/
theorem contains_eq_false_of_not_mem {l : List Nat} {a : Nat} (h : a ∉ l) :
    l.contains a = false := by
  cases hcc : l.contains a
  · rfl
  · exact absurd (List.mem_of_elem_eq_true hcc) h

/-- The client id removed by Unsubscribe is not in the remaining set. -/
theorem remaining_not_mem (s : List Nat) (cid : Nat) :
    cid ∉ s.filter (fun x => !(x == cid)) := by
  intro hmem
  have := (List.mem_filter.mp hmem).2
  simp at this

/-- Unsubscribe on a lobby with no subscriber set is the identity. -/
theorem unsubscribe_none {h : Hub} {lid cid : Nat}
    (hf : h.lobbies.find? (fun q => q.1 == lid) = none) :
    Hub.unsubscribe h lid cid = h := by
  unfold Hub.unsubscribe
  rw [hf]

/-- Unsubscribe of a client not in the lobby's subscriber set is the identity. -/
theorem unsubscribe_not_subscribed {h : Hub} {lid cid : Nat} (p : Nat × List Nat)
    (hf : h.lobbies.find? (fun q => q.1 == lid) = some p)
    (hc : p.2.contains cid = false) :
    Hub.unsubscribe h lid cid = h := by
  unfold Hub.unsubscribe
  rw [hf]
  simp only
  rw [if_neg (by rw [hc]; exact Bool.false_ne_true)]

/-- The effect of Unsubscribe on a subscribed client, as one equation. -/
theorem unsubscribe_found {h : Hub} {lid cid : Nat} {p : Nat × List Nat}
    (hf : h.lobbies.find? (fun q => q.1 == lid) = some p)
    (hc : p.2.contains cid = true) :
    Hub.unsubscribe h lid cid =
      { lobbies :=
          if (p.2.filter (fun x => !(x == cid))).isEmpty then
            h.lobbies.filter (fun q => !(q.1 == lid))
          else
            h.lobbies.map (fun q =>
              if q.1 == lid then (q.1, p.2.filter (fun x => !(x == cid))) else q),
        sinks := h.sinks.map (fun s =>
          if s.id == cid then { s with closed := true } else s) } := by
  unfold Hub.unsubscribe
  rw [hf]
  simp only
  rw [if_pos hc]

/-- Broadcast on a lobby with a subscriber set, as one equation. -/
theorem broadcast_found {h : Hub} {lid : Nat} {e : Event} {p : Nat × List Nat}
    (hf : h.lobbies.find? (fun q => q.1 == lid) = some p) :
    Hub.broadcast h lid e =
      { h with sinks := h.sinks.map (fun s =>
          if p.2.contains s.id then sendNonBlocking s (marshal e) else s) } := by
  unfold Hub.broadcast
  rw [hf]

/-- C7: Broadcast serializes the event once and delivers that single
serialization with a non-blocking send: the subscriber registry is never
changed, every subscribed sink with room in its buffer receives exactly
the one serialized event appended, every subscribed sink whose buffer is
full is left completely unchanged (the delivery is dropped rather than
blocked on), sinks not subscribed to the lobby are untouched, and
broadcasting to a lobby with no subscriber set is a no-op on the whole
hub, not an error. -/
theorem c7_broadcast (h : Hub) (lid : Nat) (e : Event) :
    (h.lobbies.find? (fun p => p.1 == lid) = none → Hub.broadcast h lid e = h) ∧
    (Hub.broadcast h lid e).lobbies = h.lobbies ∧
    (∀ p, h.lobbies.find? (fun q => q.1 == lid) = some p →
      ∀ i : Nat, ∀ s, h.sinks[i]? = some s →
        ((p.2.contains s.id = true → s.buffer.length < s.capacity →
            (Hub.broadcast h lid e).sinks[i]? =
              some { s with buffer := s.buffer ++ [marshal e] }) ∧
         (p.2.contains s.id = true → ¬ s.buffer.length < s.capacity →
            (Hub.broadcast h lid e).sinks[i]? = some s) ∧
         (p.2.contains s.id = false →
            (Hub.broadcast h lid e).sinks[i]? = some s))) := by
  refine ⟨?_, ?_, ?_⟩
  · intro hnone
    unfold Hub.broadcast
    rw [hnone]
  · unfold Hub.broadcast
    split
    · rfl
    · rfl
  · intro p hp i s hs
    have hb := broadcast_found (e := e) hp
    refine ⟨?_, ?_, ?_⟩
    · intro hc hroom
      rw [hb]
      simp only
      rw [List.getElem?_map, hs, Option.map_some']
      rw [if_pos hc]
      unfold sendNonBlocking
      rw [if_pos hroom]
    · intro hc hfull
      rw [hb]
      simp only
      rw [List.getElem?_map, hs, Option.map_some']
      rw [if_pos hc]
      unfold sendNonBlocking
      rw [if_neg hfull]
    · intro hc
      rw [hb]
      simp only
      rw [List.getElem?_map, hs, Option.map_some']
      rw [if_neg (by rw [hc]; exact Bool.false_ne_true)]

/-- C7 witness: in hubDemo, broadcasting to lobby 1 appends the serialized
event to sink 7 (which has room) and leaves full sink 8 unchanged, and
broadcasting to unknown lobby 2 is a no-op. -/
theorem c7_witness :
    (Hub.broadcast hubDemo 1 demoEvent).sinks[0]? =
      some { id := 7, capacity := 1, buffer := [marshal demoEvent], closed := false } ∧
    (Hub.broadcast hubDemo 1 demoEvent).sinks[1]? =
      some { id := 8, capacity := 1, buffer := ["old"], closed := false } ∧
    Hub.broadcast hubDemo 2 demoEvent = hubDemo := by
  have h := c7_broadcast hubDemo 1 demoEvent
  have h2 := c7_broadcast hubDemo 2 demoEvent
  refine ⟨?_, ?_, h2.1 rfl⟩
  · exact (h.2.2 (1, [7, 8]) rfl 0 _ rfl).1 rfl (by decide)
  · exact (h.2.2 (1, [7, 8]) rfl 1 _ rfl).2.1 rfl (by decide)

/-- C8: Unsubscribe is idempotent — a second call on the same handle (the
same lobby id and client) leaves the hub state exactly as the first call
left it, with no error and no second close.  The first call on a
subscribed handle removes the client from the lobby's subscriber set,
marks the client's sink closed (the single close of the channel), and if
the subscriber set became empty removes the lobby's entry from the
registry. -/
theorem c8_unsubscribe_idempotent (h : Hub) (lid cid : Nat) :
    Hub.unsubscribe (Hub.unsubscribe h lid cid) lid cid = Hub.unsubscribe h lid cid ∧
    (∀ p, h.lobbies.find? (fun q => q.1 == lid) = some p → p.2.contains cid = true →
      (∀ q ∈ (Hub.unsubscribe h lid cid).lobbies, q.1 = lid → cid ∉ q.2) ∧
      (∀ i : Nat, ∀ s, h.sinks[i]? = some s → s.id = cid →
        (Hub.unsubscribe h lid cid).sinks[i]? = some { s with closed := true }) ∧
      ((p.2.filter (fun x => !(x == cid))).isEmpty = true →
        ∀ q ∈ (Hub.unsubscribe h lid cid).lobbies, q.1 ≠ lid)) := by
  constructor
  · -- idempotence
    cases hf : h.lobbies.find? (fun q => q.1 == lid) with
    | none =>
        rw [unsubscribe_none hf, unsubscribe_none hf]
    | some p =>
        cases hc : p.2.contains cid with
        | false =>
            rw [unsubscribe_not_subscribed p hf hc, unsubscribe_not_subscribed p hf hc]
        | true =>
            have h1 := unsubscribe_found hf hc
            have hremC : (p.2.filter (fun x => !(x == cid))).contains cid = false :=
              contains_eq_false_of_not_mem (remaining_not_mem p.2 cid)
            cases hemp : (p.2.filter (fun x => !(x == cid))).isEmpty with
            | true =>
                have hnone :
                    ((h.lobbies.filter (fun q => !(q.1 == lid))).find?
                      (fun q => q.1 == lid)) = none := by
                  refine List.find?_eq_none.mpr ?_
                  intro x hx
                  have hx2 := (List.mem_filter.mp hx).2
                  simp only [Bool.not_eq_true'] at hx2
                  simp [hx2]
                have hnone' : (Hub.unsubscribe h lid cid).lobbies.find?
                    (fun q => q.1 == lid) = none := by
                  rw [h1]
                  simp only [hemp, if_true]
                  exact hnone
                exact unsubscribe_none hnone'
            | false =>
                have hfind :
                    ((h.lobbies.map (fun q =>
                      if q.1 == lid then (q.1, p.2.filter (fun x => !(x == cid))) else q)).find?
                        (fun q => q.1 == lid)) =
                      some (p.1, p.2.filter (fun x => !(x == cid))) := by
                  rw [find?_map_of_key Prod.fst h.lobbies lid _ ?fstkey]
                  case fstkey =>
                    intro x
                    by_cases hx : (x.1 == lid) = true
                    · rw [if_pos hx]
                    · rw [if_neg (by simp [hx])]
                  rw [hf, Option.map_some']
                  have hp1 := List.find?_some hf
                  simp only at hp1
                  rw [if_pos hp1]
                have hfind' : (Hub.unsubscribe h lid cid).lobbies.find?
                    (fun q => q.1 == lid) =
                      some (p.1, p.2.filter (fun x => !(x == cid))) := by
                  rw [h1]
                  simp only [hemp, Bool.false_eq_true, if_false]
                  exact hfind
                exact unsubscribe_not_subscribed _ hfind' hremC
  · -- effect of the first call on a subscribed handle
    intro p hp hc
    have h1 := unsubscribe_found hp hc
    refine ⟨?_, ?_, ?_⟩
    · intro q hq hq1
      rw [h1] at hq
      simp only at hq
      cases hemp : (p.2.filter (fun x => !(x == cid))).isEmpty with
      | true =>
          rw [hemp, if_pos rfl] at hq
          have hx2 := (List.mem_filter.mp hq).2
          simp only [Bool.not_eq_true'] at hx2
          rw [hq1] at hx2
          simp at hx2
      | false =>
          rw [hemp, if_neg Bool.false_ne_true] at hq
          rcases List.mem_map.mp hq with ⟨q0, hq0, hq0eq⟩
          by_cases hq01 : (q0.1 == lid) = true
          · rw [if_pos hq01] at hq0eq
            rw [← hq0eq]
            exact remaining_not_mem p.2 cid
          · rw [if_neg hq01] at hq0eq
            rw [← hq0eq] at hq1
            exact absurd (by simp [hq1]) hq01
    · intro i s hs hsid
      rw [h1]
      simp only
      rw [List.getElem?_map, hs, Option.map_some']
      rw [if_pos (by simp [hsid])]
    · intro hemp q hq
      rw [h1] at hq
      simp only at hq
      rw [hemp, if_pos rfl] at hq
      have hx2 := (List.mem_filter.mp hq).2
      simp only [Bool.not_eq_true'] at hx2
      exact beq_eq_false_iff_ne.mp hx2

/-- C8 witness: unsubscribing client 7 from lobby 1 of hubSolo twice gives
the same hub as once; the single call closed the sink and removed the
now-empty lobby entry. -/
theorem c8_witness :
    Hub.unsubscribe (Hub.unsubscribe hubSolo 1 7) 1 7 = Hub.unsubscribe hubSolo 1 7 ∧
    (Hub.unsubscribe hubSolo 1 7).sinks[0]? =
      some { id := 7, capacity := 1, buffer := [], closed := true } ∧
    (∀ q ∈ (Hub.unsubscribe hubSolo 1 7).lobbies, q.1 ≠ 1) := by
  have h := c8_unsubscribe_idempotent hubSolo 1 7
  refine ⟨h.1, ?_, ?_⟩
  · exact (h.2 (1, [7]) rfl rfl).2.1 0 _ rfl rfl
  · exact (h.2 (1, [7]) rfl rfl).2.2 rfl

/-- The membership update rewrites exactly the caller's row. -/
theorem findUser_setUserLobby {st : DBState} {uid : Nat} {user : GoUser}
    (hu : findUser st uid = some user) (v : Option Nat) :
    findUser (setUserLobby st uid v) uid =
      some { user with currentLobbyID := v,
                       joinSeq := if v.isSome then some st.nextSeq else none } := by
  have hu' : st.users.find? (fun u => u.id == uid) = some user := hu
  show (st.users.map (fun u =>
      if u.id == uid then
        { u with currentLobbyID := v,
                 joinSeq := if v.isSome then some st.nextSeq else none }
      else u)).find? (fun u => u.id == uid) = _
  rw [find?_map_of_key GoUser.id st.users uid _ ?key]
  case key =>
    intro x
    by_cases hx : (x.id == uid) = true
    · rw [if_pos hx]
    · rw [if_neg hx]
  rw [hu', Option.map_some']
  have huid : (user.id == uid) = true := by
    have hx := List.find?_some hu'
    exact hx
  rw [if_pos huid]

/-- The host_id column update rewrites exactly the looked-up lobby row. -/
theorem findLobby_updateLobbyHost {st : DBState} {lid : Nat} {lobby : GoLobby}
    (hl : findLobby st lid = some lobby) (hid : Nat) :
    findLobby (updateLobbyHost st lid hid) lid = some { lobby with hostID := hid } := by
  have hl' : st.lobbies.find? (fun l => l.id == lid) = some lobby := hl
  show (st.lobbies.map (fun l =>
      if l.id == lid then { l with hostID := hid } else l)).find?
      (fun l => l.id == lid) = _
  rw [find?_map_of_key GoLobby.id st.lobbies lid _ ?key]
  case key =>
    intro x
    by_cases hx : (x.id == lid) = true
    · rw [if_pos hx]
    · rw [if_neg hx]
  rw [hl', Option.map_some']
  have hlid : (lobby.id == lid) = true := by
    have hx := List.find?_some hl'
    exact hx
  rw [if_pos hlid]

/-- C4 (amended): with the caller's user row present, JoinLobby fails with
Conflict when the caller already has a current lobby, with NotFound when
the lobby does not exist, and with the Conflict("full") error exactly when
the member count is at least max_players (the code tests >=, not equality,
so it also fires on over-capacity lobbies); every failing call leaves the
database untouched and broadcasts nothing; otherwise the call succeeds and
(when the writes go through) sets the caller's current_lobby_id to the
lobby, adding the caller to its member list. -/
theorem c4_join_spec {user : GoUser} (st : DBState) (uid lid : Nat)
    (oracle : Nat → Bool) (hu : findUser st uid = some user) :
    (user.currentLobbyID.isSome = true →
      joinLobby st uid lid oracle =
        { result := { status := .conflict, message := "User is already in a lobby" },
          state := st, events := [] }) ∧
    (user.currentLobbyID = none → findLobby st lid = none →
      joinLobby st uid lid oracle =
        { result := { status := .notFound, message := "Lobby not found" },
          state := st, events := [] }) ∧
    (∀ lobby, user.currentLobbyID = none → findLobby st lid = some lobby →
      (((lobbyMembers st lobby.id).length : Int) ≥ lobby.maxPlayers ↔
        (joinLobby st uid lid oracle).result =
          { status := .conflict, message := "Lobby is full" })) ∧
    ((joinLobby st uid lid oracle).result.status ≠ .ok →
      (joinLobby st uid lid oracle).state = st ∧
      (joinLobby st uid lid oracle).events = []) ∧
    (∀ lobby, user.currentLobbyID = none → findLobby st lid = some lobby →
      ((lobbyMembers st lobby.id).length : Int) < lobby.maxPlayers →
      (joinLobby st uid lid oracle).result.status = .ok ∧
      (findUser (joinLobby st uid lid noFail).state uid).map GoUser.currentLobbyID =
        some (some lobby.id) ∧
      ∃ u ∈ lobbyMembers (joinLobby st uid lid noFail).state lobby.id, u.id = uid) := by
  have huid : user.id = uid := findUser_id hu
  refine ⟨?_, ?_, ?_, ?_, ?_⟩
  · intro hsome
    have hval : joinValidate st uid lid =
        .error { status := .conflict, message := "User is already in a lobby" } := by
      unfold joinValidate
      rw [hu]
      simp only [Option.getD_some]
      rw [if_pos hsome]
    unfold joinLobby
    rw [hval]
  · intro hnone hnl
    have hval : joinValidate st uid lid =
        .error { status := .notFound, message := "Lobby not found" } := by
      unfold joinValidate
      rw [hu]
      simp only [Option.getD_some, hnone, Option.isSome_none, Bool.false_eq_true,
        if_false]
      rw [hnl]
    unfold joinLobby
    rw [hval]
  · intro lobby hnone hl
    constructor
    · intro hge
      have hval : joinValidate st uid lid =
          .error { status := .conflict, message := "Lobby is full" } := by
        unfold joinValidate
        rw [hu]
        simp only [Option.getD_some, hnone, Option.isSome_none, Bool.false_eq_true,
          if_false]
        rw [hl]
        simp only
        rw [if_pos hge]
      have : joinLobby st uid lid oracle =
          { result := { status := .conflict, message := "Lobby is full" },
            state := st, events := [] } := by
        unfold joinLobby
        rw [hval]
      rw [this]
    · intro hres
      by_contra hnge
      have hval : joinValidate st uid lid = .ok (user, lobby) := by
        unfold joinValidate
        rw [hu]
        simp only [Option.getD_some, hnone, Option.isSome_none, Bool.false_eq_true,
          if_false]
        rw [hl]
        simp only
        rw [if_neg hnge]
      have hjoin : joinLobby st uid lid oracle = joinCommit st user lobby oracle := by
        unfold joinLobby
        rw [hval]
      rw [hjoin] at hres
      have : HStatus.ok = HStatus.conflict := congrArg HResult.status hres
      exact absurd this (by decide)
  · intro hne
    cases hv : joinValidate st uid lid with
    | error e =>
        have hjoin : joinLobby st uid lid oracle =
            { result := e, state := st, events := [] } := by
          unfold joinLobby
          rw [hv]
        rw [hjoin]
        exact ⟨rfl, rfl⟩
    | ok pr =>
        obtain ⟨u1, l1⟩ := pr
        have hjoin : joinLobby st uid lid oracle = joinCommit st u1 l1 oracle := by
          unfold joinLobby
          rw [hv]
        exact absurd (by rw [hjoin]; rfl) hne
  · intro lobby hnone hl hlt
    have hval : joinValidate st uid lid = .ok (user, lobby) := by
      unfold joinValidate
      rw [hu]
      simp only [Option.getD_some, hnone, Option.isSome_none, Bool.false_eq_true,
        if_false]
      rw [hl]
      simp only
      rw [if_neg (not_le.mpr hlt)]
    have hjoin : joinLobby st uid lid oracle = joinCommit st user lobby oracle := by
      unfold joinLobby
      rw [hval]
    have hjoinN : joinLobby st uid lid noFail = joinCommit st user lobby noFail := by
      unfold joinLobby
      rw [hval]
    refine ⟨by rw [hjoin]; rfl, ?_, ?_⟩
    · have hstate : (joinLobby st uid lid noFail).state =
          appendMessage (setUserLobby st uid (some lobby.id))
            { lobbyID := lobby.id, userID := none, type := .system,
              content := "User " ++ user.nickname ++ " joined the lobby." } := by
        rw [hjoinN]
        unfold joinCommit
        rw [huid]
        rfl
      rw [hstate]
      have : findUser (appendMessage (setUserLobby st uid (some lobby.id))
          { lobbyID := lobby.id, userID := none, type := .system,
            content := "User " ++ user.nickname ++ " joined the lobby." }) uid =
          findUser (setUserLobby st uid (some lobby.id)) uid := rfl
      rw [this, findUser_setUserLobby hu]
      rfl
    · have hstate : (joinLobby st uid lid noFail).state =
          appendMessage (setUserLobby st uid (some lobby.id))
            { lobbyID := lobby.id, userID := none, type := .system,
              content := "User " ++ user.nickname ++ " joined the lobby." } := by
        rw [hjoinN]
        unfold joinCommit
        rw [huid]
        rfl
      rw [hstate]
      refine ⟨{ user with currentLobbyID := some lobby.id,
                          joinSeq := some st.nextSeq }, ?_, huid⟩
      refine List.mem_filter.mpr ⟨?_, by simp⟩
      show _ ∈ (setUserLobby st uid (some lobby.id)).users
      refine List.mem_map.mpr ⟨user, findUser_mem hu, ?_⟩
      rw [if_pos (by rw [huid]; exact beq_self_eq_true uid)]
      rfl

/-- C4 witness: in c1St (lobby 1, one member, capacity 3) user B's join
succeeds and B's row now points at lobby 1. -/
theorem c4_witness :
    (joinLobby c1St 2 1 noFail).result.status = HStatus.ok ∧
    (findUser (joinLobby c1St 2 1 noFail).state 2).map GoUser.currentLobbyID =
      some (some 1) := by
  have h := c4_join_spec c1St 2 1 noFail rfl
  have hs := h.2.2.2.2 { id := 1, gameID := 5, hostID := 3, title := "", description := "fun", maxPlayers := 3 } rfl rfl (by decide)
  exact ⟨hs.1, hs.2.1⟩

/-- C5 (amended): when the current host of a lobby that has at least one
other member calls LeaveLobby, the call succeeds, the lobby still exists,
and its new host is the first remaining member in the order the
persistence layer returns the member list — a member drawn from the
remaining members, though not necessarily the earliest-joined one — and a
host_changed event plus a "... is now the host." system message are
produced (followed by the user_left broadcast). -/
theorem c5_host_leave_promotes {user : GoUser} {lobby : GoLobby}
    (st : DBState) (uid lid : Nat)
    (hu : findUser st uid = some user) (hcur : user.currentLobbyID = some lid)
    (hl : findLobby st lid = some lobby) (hhost : lobby.hostID = uid)
    (hids : ∀ m ∈ lobbyMembers st lid, m.id ≠ 0)
    (hother : ∃ m ∈ lobbyMembers st lid, ¬ m.id = uid) :
    ∃ nextHost,
      (lobbyMembers st lid).find? (fun m => !(m.id == uid)) = some nextHost ∧
      nextHost ∈ lobbyMembers st lid ∧ nextHost.id ≠ uid ∧
      (leaveLobby st uid noFail).result.status = HStatus.ok ∧
      findLobby (leaveLobby st uid noFail).state lid =
        some { lobby with hostID := nextHost.id } ∧
      (leaveLobby st uid noFail).events =
        [{ type := "host_changed", payload := userPayload nextHost },
         { type := "user_left", payload := userPayload user }] ∧
      (leaveLobby st uid noFail).state.messages =
        st.messages ++
          [{ lobbyID := lid, userID := none, type := .system,
             content := "User " ++ user.nickname ++ " left the lobby." },
           { lobbyID := lid, userID := none, type := .system,
             content := "User " ++ nextHost.nickname ++ " is now the host." }] := by
  have huid : user.id = uid := findUser_id hu
  have hlid : lobby.id = lid := findLobby_id hl
  have huserMem : user ∈ lobbyMembers st lid :=
    List.mem_filter.mpr ⟨findUser_mem hu, by simp [hcur]⟩
  obtain ⟨m0, hm0, hm0ne⟩ := hother
  -- the code's find of the first member other than the leaver succeeds
  cases hfind : (lobbyMembers st lid).find? (fun m => !(m.id == uid)) with
  | none =>
      exfalso
      have := List.find?_eq_none.mp hfind m0 hm0
      simp only [Bool.not_eq_true'] at this
      exact hm0ne (by simpa using this)
  | some nextHost =>
  have hnhMem : nextHost ∈ lobbyMembers st lid := List.mem_of_find?_eq_some hfind
  have hnhNe : nextHost.id ≠ uid := by
    have := List.find?_some hfind
    simp only [Bool.not_eq_true'] at this
    exact beq_eq_false_iff_ne.mp this
  have hnhNz : nextHost.id ≠ 0 := hids nextHost hnhMem
  have hneUser : nextHost ≠ user := fun hcc => hnhNe (by rw [hcc, huid])
  -- the lobby cannot be in the sole-member branch
  have hlen : ((lobbyMembers st lid).length == 1) = false := by
    rw [beq_eq_false_iff_ne]
    intro hone
    obtain ⟨a, ha⟩ := List.length_eq_one.mp hone
    rw [ha] at huserMem hnhMem
    have h1 := List.mem_singleton.mp huserMem
    have h2 := List.mem_singleton.mp hnhMem
    exact hneUser (h2.trans h1.symm)
  -- run the handler along the promoted-host branch
  have hout : leaveLobby st uid noFail =
      { result := { status := .ok, message := "Left lobby successfully" },
        state := appendMessage
          (updateLobbyHost
            (appendMessage (setUserLobby st uid none)
              { lobbyID := lid, userID := none, type := .system,
                content := "User " ++ user.nickname ++ " left the lobby." })
            lid nextHost.id)
          { lobbyID := lid, userID := none, type := .system,
            content := "User " ++ nextHost.nickname ++ " is now the host." },
        events := [{ type := "host_changed", payload := userPayload nextHost },
                   { type := "user_left", payload := userPayload user }] } := by
    unfold leaveLobby
    rw [hu]
    simp only [hcur, hl, Option.getD_some, hlid, huid, noFail, Bool.false_eq_true,
      if_false]
    simp only [hlen, Bool.false_and, Bool.false_eq_true, if_false]
    rw [if_pos (by rw [hhost]; exact beq_self_eq_true uid)]
    rw [hfind]
    simp only [Option.getD_some]
    rw [if_pos (by simp [hnhNz])]
  refine ⟨nextHost, rfl, hnhMem, hnhNe, by rw [hout], ?_, by rw [hout], ?_⟩
  · rw [hout]
    show findLobby (updateLobbyHost _ lid nextHost.id) lid = _
    have hl2 : findLobby (appendMessage (setUserLobby st uid none)
        { lobbyID := lid, userID := none, type := .system,
          content := "User " ++ user.nickname ++ " left the lobby." }) lid =
        some lobby := hl
    exact findLobby_updateLobbyHost hl2 nextHost.id
  · rw [hout]
    show (st.messages ++ [_]) ++ [_] = _
    rw [List.append_assoc]
    rfl

/-- C5 witness: in c5Pre (C hosts lobby 1 with members A, B, C), host C's
leave promotes a remaining member and emits host_changed plus the system
message. -/
theorem c5_witness :
    (leaveLobby c5Pre 3 noFail).result.status = HStatus.ok ∧
    ∃ nextHost, (lobbyMembers c5Pre 1).find? (fun m => !(m.id == 3)) = some nextHost ∧
      findLobby (leaveLobby c5Pre 3 noFail).state 1 ≠ none := by
  obtain ⟨nh, hfind, _, _, hok, hfound, _, _⟩ :=
    c5_host_leave_promotes c5Pre 3 1 rfl rfl rfl rfl (by decide)
      ⟨{ id := 1, nickname := "A", currentLobbyID := some 1, joinSeq := some 2 },
        by decide, by decide⟩
  exact ⟨hok, nh, hfind, by rw [hfound]; exact fun hcc => Option.noConfusion hcc⟩

/-!
Machinery for the reachability invariant (claims about reachable states):
transport lemmas for the row-update operations and counting lemmas for the
derived member lists.
-/

/-- The member list's length as a countP over the users table. -/
theorem members_length_eq_countP (st : DBState) (lid : Nat) :
    (lobbyMembers st lid).length =
      st.users.countP (fun u => u.currentLobbyID == some lid) :=
  (List.countP_eq_length_filter _ _).symm

/-- The membership update keeps the column of user primary keys unchanged. -/
theorem setUserLobby_map_id (st : DBState) (uid : Nat) (v : Option Nat) :
    (setUserLobby st uid v).users.map GoUser.id = st.users.map GoUser.id := by
  show (st.users.map _).map GoUser.id = _
  rw [List.map_map]
  apply List.map_congr_left
  intro a _
  by_cases h : (a.id == uid) = true
  · simp only [Function.comp_apply, if_pos h]
  · simp only [Function.comp_apply, if_neg h]

/-- A user row with a different key survives the membership update. -/
theorem mem_setUserLobby_of_ne {st : DBState} {u : GoUser} (hu : u ∈ st.users)
    (uid : Nat) (v : Option Nat) (hne : u.id ≠ uid) :
    u ∈ (setUserLobby st uid v).users := by
  refine List.mem_map.mpr ⟨u, hu, ?_⟩
  rw [if_neg (by simp [hne])]

/-- The updated row of the membership update. -/
theorem mem_setUserLobby_self {st : DBState} {u : GoUser} (hu : u ∈ st.users)
    (v : Option Nat) :
    { u with currentLobbyID := v,
             joinSeq := if v.isSome then some st.nextSeq else none }
      ∈ (setUserLobby st u.id v).users := by
  refine List.mem_map.mpr ⟨u, hu, ?_⟩
  rw [if_pos (beq_self_eq_true u.id)]

/-- A membership update keyed by an absent primary key is a no-op on users. -/
theorem setUserLobby_users_of_absent {st : DBState} {uid : Nat}
    (h : ∀ u ∈ st.users, u.id ≠ uid) (v : Option Nat) :
    (setUserLobby st uid v).users = st.users := by
  show st.users.map _ = st.users
  have : ∀ a ∈ st.users,
      (if a.id == uid then
        { a with currentLobbyID := v,
                 joinSeq := if v.isSome then some st.nextSeq else none }
      else a) = id a := by
    intro a ha
    rw [if_neg (by simp [h a ha])]
    rfl
  rw [List.map_congr_left this, List.map_id]

/-- Setting a membership pointer to anything other than `some lid` cannot
increase lobby lid's member count. -/
theorem countP_setUserLobby_le (st : DBState) (uid : Nat) (v : Option Nat)
    (lid : Nat) (hv : v ≠ some lid) :
    (setUserLobby st uid v).users.countP (fun u => u.currentLobbyID == some lid) ≤
      st.users.countP (fun u => u.currentLobbyID == some lid) := by
  show (st.users.map _).countP _ ≤ _
  rw [List.countP_map]
  apply List.countP_mono_left
  intro a _ hpa
  simp only [Function.comp_apply] at hpa
  by_cases h : (a.id == uid) = true
  · rw [if_pos h] at hpa
    have : v = some lid := by simpa using hpa
    exact absurd this hv
  · rw [if_neg h] at hpa
    exact hpa

/-- Pointing the unique row with key uid (whose pointer was not `some lid`)
at lobby lid raises that lobby's member count by exactly one. -/
theorem countP_update_first {l : List GoUser} {user : GoUser} (seq uid lid : Nat)
    (hn : (l.map GoUser.id).Nodup) (hmem : user ∈ l) (hid : user.id = uid)
    (hnotin : user.currentLobbyID ≠ some lid) :
    (l.map (fun u => if u.id == uid then
        { u with currentLobbyID := some lid, joinSeq := some seq } else u)).countP
      (fun u => u.currentLobbyID == some lid) =
    l.countP (fun u => u.currentLobbyID == some lid) + 1 := by
  induction l with
  | nil => cases hmem
  | cons a l ih =>
    rw [List.map_cons] at hn
    have hnca := List.nodup_cons.mp hn
    rw [List.map_cons]
    by_cases ha : (a.id == uid) = true
    · have hau : a = user := by
        cases List.mem_cons.mp hmem with
        | inl hcc => exact hcc.symm
        | inr hcc =>
            exfalso
            have h1 : user.id ∈ l.map GoUser.id := List.mem_map_of_mem GoUser.id hcc
            have h2 : a.id = user.id := by
              rw [hid]
              exact beq_iff_eq.mp ha
            rw [h2] at hnca
            exact hnca.1 h1
      have hmap : l.map (fun u => if u.id == uid then
          { u with currentLobbyID := some lid, joinSeq := some seq } else u) = l := by
        have hstep : ∀ u ∈ l, (if u.id == uid then
            { u with currentLobbyID := some lid, joinSeq := some seq } else u) = id u := by
          intro u hul
          have : u.id ≠ uid := by
            intro hcc
            apply hnca.1
            rw [beq_iff_eq.mp ha, ← hcc]
            exact List.mem_map_of_mem GoUser.id hul
          rw [if_neg (by simp [this])]
          rfl
        rw [List.map_congr_left hstep, List.map_id]
      rw [if_pos ha, hmap]
      rw [List.countP_cons, List.countP_cons]
      have hheadNew :
          (({ a with currentLobbyID := some lid, joinSeq := some seq } : GoUser).currentLobbyID == some lid) = true := by
        simp
      have hheadOld : (a.currentLobbyID == some lid) = false := by
        rw [hau]
        simp only [beq_eq_false_iff_ne, ne_eq]
        exact hnotin
      rw [hheadNew, hheadOld]
      simp
    · have hmemtail : user ∈ l := by
        cases List.mem_cons.mp hmem with
        | inl hcc =>
            exfalso
            apply ha
            rw [hcc] at hid
            simp [hid]
        | inr hcc => exact hcc
      rw [if_neg ha]
      rw [List.countP_cons, List.countP_cons, ih hnca.2 hmemtail]
      omega

/-- No user points at a lobby id at or above the auto-increment counter. -/
theorem countP_fresh_eq_zero (st : DBState)
    (hfresh : ∀ u ∈ st.users, ∀ lid, u.currentLobbyID = some lid →
      lid < st.nextLobbyID) :
    st.users.countP (fun u => u.currentLobbyID == some st.nextLobbyID) = 0 := by
  rw [List.countP_eq_zero]
  intro a ha hcc
  have hpt : a.currentLobbyID = some st.nextLobbyID := by simpa using hcc
  exact lt_irrefl _ (hfresh a ha st.nextLobbyID hpt)

/-- A found lobby row is a row of the lobbies table. -/
theorem findLobby_mem {st : DBState} {lid : Nat} {lobby : GoLobby}
    (hl : findLobby st lid = some lobby) : lobby ∈ st.lobbies := by
  have hl' : st.lobbies.find? (fun l => l.id == lid) = some lobby := hl
  exact List.mem_of_find?_eq_some hl'

/-- With distinct user keys, a row carrying the looked-up key is the found row. -/
theorem eq_user_of_id_eq {st : DBState} {uid : Nat} {user w : GoUser}
    (hnd : (st.users.map GoUser.id).Nodup) (hu : findUser st uid = some user)
    (hw : w ∈ st.users) (hid : w.id = uid) : w = user :=
  List.inj_on_of_nodup_map hnd hw (findUser_mem hu) (by rw [hid, findUser_id hu])

/-- With distinct lobby keys, a row carrying the looked-up key is the found row. -/
theorem eq_lobby_of_id_eq {st : DBState} {lid : Nat} {lobby l' : GoLobby}
    (hnd : (st.lobbies.map GoLobby.id).Nodup) (hl : findLobby st lid = some lobby)
    (hl' : l' ∈ st.lobbies) (hid : l'.id = lid) : l' = lobby :=
  List.inj_on_of_nodup_map hnd hl' (findLobby_mem hl) (by rw [hid, findLobby_id hl])

/-- Nonzero user keys survive a membership update. -/
theorem usersNZ_setUserLobby {st : DBState} (h : ∀ u ∈ st.users, u.id ≠ 0)
    (uid : Nat) (v : Option Nat) :
    ∀ u ∈ (setUserLobby st uid v).users, u.id ≠ 0 := by
  intro u' hmem
  obtain ⟨u, hu2, heq⟩ := List.mem_map.mp hmem
  by_cases hg : (u.id == uid) = true
  · rw [← heq, if_pos hg]
    exact h u hu2
  · rw [← heq, if_neg hg]
    exact h u hu2

/-- The host invariant survives a membership update whose target is no
lobby's host witness. -/
theorem hostMem_setUserLobby {st : DBState} {uid : Nat} (v : Option Nat)
    (h : ∀ l ∈ st.lobbies, ∃ u ∈ st.users, u.id = l.hostID ∧
      u.currentLobbyID = some l.id ∧ u.id ≠ uid) :
    HostMember (setUserLobby st uid v) := by
  intro l hl
  obtain ⟨w, hw, hwid, hwpt, hwne⟩ := h l hl
  exact ⟨w, mem_setUserLobby_of_ne hw uid v hwne, hwid, hwpt⟩

/-- Pointer freshness survives a membership update whose new value is fresh. -/
theorem ptrFresh_setUserLobby {st : DBState} {uid : Nat} {v : Option Nat}
    (h : ∀ u ∈ st.users, ∀ k, u.currentLobbyID = some k → k < st.nextLobbyID)
    (hv : ∀ k, v = some k → k < st.nextLobbyID) :
    ∀ u ∈ (setUserLobby st uid v).users, ∀ k, u.currentLobbyID = some k →
      k < (setUserLobby st uid v).nextLobbyID := by
  intro u' hmem k hpt
  obtain ⟨u, hu2, heq⟩ := List.mem_map.mp hmem
  by_cases hg : (u.id == uid) = true
  · rw [← heq, if_pos hg] at hpt
    exact hv k hpt
  · rw [← heq, if_neg hg] at hpt
    exact h u hu2 k hpt

/-- Appending a message preserves the whole invariant. -/
theorem inv_appendMessage {st : DBState} (h : Inv st) (m : GoMessage) :
    Inv (appendMessage st m) :=
  ⟨h.usersNZ, h.usersND, h.lobbiesND, h.lobbiesFresh, h.ptrFresh, h.hostMem, h.maxRange⟩

/-- Appending a message preserves the capacity bound. -/
theorem capOK_appendMessage {st : DBState} (h : CapOK st) (m : GoMessage) :
    CapOK (appendMessage st m) := h

/-- A membership update keyed by an absent primary key preserves the invariant. -/
theorem inv_setUserLobby_absent {st : DBState} {uid : Nat} (h : Inv st)
    (habs : ∀ u ∈ st.users, u.id ≠ uid) (v : Option Nat) :
    Inv (setUserLobby st uid v) := by
  have heq := setUserLobby_users_of_absent habs v
  refine ⟨?_, ?_, h.lobbiesND, h.lobbiesFresh, ?_, ?_, h.maxRange⟩
  · show ∀ u ∈ (setUserLobby st uid v).users, u.id ≠ 0
    rw [heq]
    exact h.usersNZ
  · show ((setUserLobby st uid v).users.map GoUser.id).Nodup
    rw [heq]
    exact h.usersND
  · show ∀ u ∈ (setUserLobby st uid v).users, _
    rw [heq]
    exact h.ptrFresh
  · intro l hl
    obtain ⟨w, hw, hwid, hwpt⟩ := h.hostMem l hl
    refine ⟨w, ?_, hwid, hwpt⟩
    show w ∈ (setUserLobby st uid v).users
    rw [heq]
    exact hw

/-- Setting the found user's pointer to an existing fresh-bounded lobby id,
from the free state, preserves the invariant. -/
theorem inv_setUserLobby_some {st : DBState} {uid : Nat} {user : GoUser} {lid : Nat}
    (h : Inv st) (hu : findUser st uid = some user)
    (hfree : user.currentLobbyID = none) (hlt : lid < st.nextLobbyID) :
    Inv (setUserLobby st uid (some lid)) := by
  refine ⟨usersNZ_setUserLobby h.usersNZ uid _, ?_, h.lobbiesND, h.lobbiesFresh,
    ptrFresh_setUserLobby h.ptrFresh (fun k hk => by injection hk with hk2; omega),
    ?_, h.maxRange⟩
  · show ((setUserLobby st uid (some lid)).users.map GoUser.id).Nodup
    rw [setUserLobby_map_id]
    exact h.usersND
  · apply hostMem_setUserLobby
    intro l hl
    obtain ⟨w, hw, hwid, hwpt⟩ := h.hostMem l hl
    refine ⟨w, hw, hwid, hwpt, ?_⟩
    intro hcc
    have hwu : w = user := eq_user_of_id_eq h.usersND hu hw hcc
    rw [hwu, hfree] at hwpt
    cases hwpt

/-- Inversion of a successful join validation. -/
theorem joinValidate_ok {st : DBState} {uid lid : Nat} {user : GoUser}
    {lobby : GoLobby} (hv : joinValidate st uid lid = .ok (user, lobby)) :
    (findUser st uid).getD zeroUser = user ∧ user.currentLobbyID = none ∧
    findLobby st lid = some lobby ∧
    ((lobbyMembers st lobby.id).length : Int) < lobby.maxPlayers := by
  unfold joinValidate at hv
  by_cases hsome : ((findUser st uid).getD zeroUser).currentLobbyID.isSome = true
  · rw [if_pos hsome] at hv
    cases hv
  · rw [if_neg hsome] at hv
    cases hl : findLobby st lid with
    | none =>
        rw [hl] at hv
        cases hv
    | some lobby0 =>
        rw [hl] at hv
        simp only at hv
        by_cases hge : ((lobbyMembers st lobby0.id).length : Int) ≥ lobby0.maxPlayers
        · rw [if_pos hge] at hv
          cases hv
        · rw [if_neg hge] at hv
          injection hv with hpr
          injection hpr with h1 h2
          subst h2
          refine ⟨h1, ?_, rfl, not_le.mp hge⟩
          rw [← h1]
          exact Option.not_isSome_iff_eq_none.mp hsome

/-- JoinLobby preserves the invariant under every failure oracle. -/
theorem inv_joinLobby (st : DBState) (uid lid : Nat) (oracle : Nat → Bool)
    (h : Inv st) : Inv (joinLobby st uid lid oracle).state := by
  unfold joinLobby
  cases hv : joinValidate st uid lid with
  | error e => exact h
  | ok pr =>
      obtain ⟨user, lobby⟩ := pr
      obtain ⟨hgetD, hfree, hl, _⟩ := joinValidate_ok hv
      show Inv (joinCommit st user lobby oracle).state
      unfold joinCommit
      dsimp only
      have hcore : Inv (if oracle 0 = true then st
          else setUserLobby st user.id (some lobby.id)) := by
        by_cases ho : oracle 0 = true
        · rw [if_pos ho]
          exact h
        · rw [if_neg ho]
          cases hu0 : findUser st uid with
          | none =>
              rw [hu0] at hgetD
              simp only [Option.getD_none] at hgetD
              refine inv_setUserLobby_absent h ?_ _
              intro u hu2
              rw [← hgetD]
              show u.id ≠ zeroUser.id
              intro hcc
              exact h.usersNZ u hu2 hcc
          | some u =>
              rw [hu0] at hgetD
              simp only [Option.getD_some] at hgetD
              subst hgetD
              have hlt : lobby.id < st.nextLobbyID :=
                h.lobbiesFresh lobby (findLobby_mem hl)
              have huid : u.id = uid := findUser_id hu0
              rw [huid]
              exact inv_setUserLobby_some h hu0 hfree hlt
      by_cases ho1 : oracle 1 = true
      · rw [if_pos ho1]
        exact hcore
      · rw [if_neg ho1]
        exact inv_appendMessage hcore _

/-- Inversion of the binding validation. -/
theorem bindLobbyInput_ok {raw : RawLobbyInput} {input : LobbyInput}
    (h : bindLobbyInput raw = some input) :
    input.gameID ≠ 0 ∧ 2 ≤ input.maxPlayers ∧ input.maxPlayers ≤ 10 := by
  unfold bindLobbyInput at h
  by_cases hc : raw.gameID.getD 0 ≠ 0 ∧ 2 ≤ raw.maxPlayers.getD 0 ∧
      raw.maxPlayers.getD 0 ≤ 10
  · rw [if_pos hc] at h
    injection h with h1
    rw [← h1]
    exact hc
  · rw [if_neg hc] at h
    cases h

/-- CreateLobby preserves the invariant under every failure oracle. -/
theorem inv_createLobby (st : DBState) (uid : Nat) (raw : RawLobbyInput)
    (oracle : Nat → Bool) (h : Inv st) :
    Inv (createLobby st uid raw oracle).state := by
  unfold createLobby
  cases hu : findUser st uid with
  | none => exact h
  | some user =>
      simp only
      by_cases hsome : user.currentLobbyID.isSome = true
      · rw [if_pos hsome]
        exact h
      rw [if_neg hsome]
      have hfree : user.currentLobbyID = none := Option.not_isSome_iff_eq_none.mp hsome
      cases hbind : bindLobbyInput raw with
      | none => exact h
      | some input =>
          simp only
          by_cases ho0 : oracle 0 = true
          · rw [if_pos ho0]
            exact h
          rw [if_neg ho0]
          by_cases ho1 : oracle 1 = true
          · rw [if_pos ho1]
            exact h
          rw [if_neg ho1]
          simp only
          obtain ⟨_, hrange⟩ := bindLobbyInput_ok hbind
          have huid : user.id = uid := findUser_id hu
          -- the committed create: fresh lobby row plus the host's pointer
          have hcore : Inv (setUserLobby
              { st with
                  lobbies := st.lobbies ++
                    [{ id := st.nextLobbyID, gameID := input.gameID, hostID := user.id, title := "", description := input.description, maxPlayers := input.maxPlayers }],
                  nextLobbyID := st.nextLobbyID + 1 }
              user.id (some st.nextLobbyID)) := by
            set newLobby : GoLobby := { id := st.nextLobbyID, gameID := input.gameID, hostID := user.id, title := "", description := input.description, maxPlayers := input.maxPlayers } with hnew
            set st1 : DBState := { st with lobbies := st.lobbies ++ [newLobby], nextLobbyID := st.nextLobbyID + 1 } with hst1
            have hu1 : findUser st1 uid = some user := hu
            have hmem1 : user ∈ st1.users := findUser_mem hu1
            refine ⟨usersNZ_setUserLobby h.usersNZ _ _, ?_, ?_, ?_, ?_, ?_, ?_⟩
            · show ((setUserLobby st1 user.id (some st.nextLobbyID)).users.map
                GoUser.id).Nodup
              rw [setUserLobby_map_id]
              exact h.usersND
            · show ((st.lobbies ++ [newLobby]).map GoLobby.id).Nodup
              rw [List.map_append]
              refine List.nodup_append.mpr ⟨h.lobbiesND, ?_, ?_⟩
              · simp
              · intro a ha hb
                simp only [List.map_cons, List.map_nil, List.mem_singleton] at hb
                obtain ⟨l0, hl0, heq0⟩ := List.mem_map.mp ha
                have hlt0 := h.lobbiesFresh l0 hl0
                rw [heq0, hb] at hlt0
                exact absurd hlt0 (lt_irrefl _)
            · intro l hl
              show l.id < st.nextLobbyID + 1
              rcases List.mem_append.mp hl with hcase | hcase
              · have := h.lobbiesFresh l hcase
                omega
              · rw [List.mem_singleton.mp hcase]
                show st.nextLobbyID < st.nextLobbyID + 1
                omega
            · refine ptrFresh_setUserLobby ?_ ?_
              · intro u hu2 k hk
                show k < st.nextLobbyID + 1
                have := h.ptrFresh u hu2 k hk
                omega
              · intro k hk
                injection hk with hk2
                show k < st.nextLobbyID + 1
                omega
            · intro l hl
              rcases List.mem_append.mp hl with hcase | hcase
              · obtain ⟨w, hw, hwid, hwpt⟩ := h.hostMem l hcase
                have hwne : w.id ≠ user.id := by
                  intro hcc
                  have hwu : w = user :=
                    eq_user_of_id_eq h.usersND hu hw (by rw [hcc, huid])
                  rw [hwu, hfree] at hwpt
                  cases hwpt
                exact ⟨w, mem_setUserLobby_of_ne hw user.id _ hwne, hwid, hwpt⟩
              · rw [List.mem_singleton.mp hcase]
                refine ⟨{ user with currentLobbyID := some st.nextLobbyID, joinSeq := if (some st.nextLobbyID).isSome then some st1.nextSeq else none }, ?_, rfl, rfl⟩
                exact mem_setUserLobby_self hmem1 (some st.nextLobbyID)
            · intro l hl
              rcases List.mem_append.mp hl with hcase | hcase
              · exact h.maxRange l hcase
              · rw [List.mem_singleton.mp hcase]
                exact hrange
          by_cases ho2 : oracle 2 = true
          · rw [if_pos ho2]
            exact hcore
          · rw [if_neg ho2]
            exact inv_appendMessage hcore _

/-- DB.Save keeps the column of lobby primary keys unchanged. -/
theorem saveLobby_map_id (st : DBState) (l : GoLobby) :
    (saveLobby st l).lobbies.map GoLobby.id = st.lobbies.map GoLobby.id := by
  show (st.lobbies.map _).map GoLobby.id = _
  rw [List.map_map]
  apply List.map_congr_left
  intro a _
  by_cases hx : (a.id == l.id) = true
  · simp only [Function.comp_apply, if_pos hx]
    exact (beq_iff_eq.mp hx).symm
  · simp only [Function.comp_apply, if_neg hx]

/-- The host_id update keeps the column of lobby primary keys unchanged. -/
theorem updateLobbyHost_map_id (st : DBState) (lid hid : Nat) :
    (updateLobbyHost st lid hid).lobbies.map GoLobby.id =
      st.lobbies.map GoLobby.id := by
  show (st.lobbies.map _).map GoLobby.id = _
  rw [List.map_map]
  apply List.map_congr_left
  intro a _
  by_cases hx : (a.id == lid) = true
  · simp only [Function.comp_apply, if_pos hx]
  · simp only [Function.comp_apply, if_neg hx]

/-- Clearing a membership pointer preserves the invariant as soon as the
cleared key is no lobby's host witness. -/
theorem inv_setUserLobby_none_of {st : DBState} {uid2 : Nat} (h : Inv st)
    (hwit : ∀ l ∈ st.lobbies, ∃ u ∈ st.users, u.id = l.hostID ∧
      u.currentLobbyID = some l.id ∧ u.id ≠ uid2) :
    Inv (setUserLobby st uid2 none) := by
  refine ⟨usersNZ_setUserLobby h.usersNZ _ _, ?_, h.lobbiesND, h.lobbiesFresh,
    ptrFresh_setUserLobby h.ptrFresh (fun k hk => Option.noConfusion hk),
    hostMem_setUserLobby _ hwit, h.maxRange⟩
  show ((setUserLobby st uid2 none).users.map GoUser.id).Nodup
  rw [setUserLobby_map_id]
  exact h.usersND

/-- When every member of the lobby carries the caller's key, the member
list is exactly the caller's row. -/
theorem members_all_self {st : DBState} {uid lid : Nat} {user : GoUser}
    (hnd : (st.users.map GoUser.id).Nodup)
    (hu : findUser st uid = some user) (hcur : user.currentLobbyID = some lid)
    (hall : ∀ m ∈ lobbyMembers st lid, (m.id == uid) = true) :
    lobbyMembers st lid = [user] := by
  have huser : user ∈ lobbyMembers st lid :=
    List.mem_filter.mpr ⟨findUser_mem hu, by simp [hcur]⟩
  have hsub : (lobbyMembers st lid).Sublist st.users := List.filter_sublist _
  have hae : ∀ m ∈ lobbyMembers st lid, m = user := fun m hm2 =>
    eq_user_of_id_eq hnd hu (hsub.subset hm2) (beq_iff_eq.mp (hall m hm2))
  have hndm : ((lobbyMembers st lid).map GoUser.id).Nodup :=
    List.Nodup.sublist (hsub.map GoUser.id) hnd
  cases hm : lobbyMembers st lid with
  | nil =>
      rw [hm] at huser
      cases huser
  | cons a l =>
      cases hl2 : l with
      | nil =>
          rw [hae a (by rw [hm]; exact List.mem_cons_self a l)]
      | cons b l2 =>
          exfalso
          rw [hm, hl2] at hndm
          rw [List.map_cons, List.map_cons, List.nodup_cons] at hndm
          apply hndm.1
          have hA : a = user := hae a (by rw [hm]; exact List.mem_cons_self a l)
          have hB : b = user := hae b (by
            rw [hm, hl2]
            exact List.mem_cons_of_mem a (List.mem_cons_self b l2))
          rw [hA, hB]
          exact List.mem_cons_self user.id (l2.map GoUser.id)

/-- The delete branch of LeaveLobby preserves the invariant. -/
theorem inv_delete_branch {st : DBState} {uid lid : Nat} {user : GoUser}
    {lobby : GoLobby} (h : Inv st) (hu : findUser st uid = some user)
    (hcur : user.currentLobbyID = some lid) (hl : findLobby st lid = some lobby) :
    Inv (deleteLobby (setUserLobby st user.id none) lobby.id) := by
  have hlid : lobby.id = lid := findLobby_id hl
  refine ⟨usersNZ_setUserLobby h.usersNZ _ _, ?_, ?_, ?_,
    ptrFresh_setUserLobby h.ptrFresh (fun k hk => Option.noConfusion hk), ?_, ?_⟩
  · show ((setUserLobby st user.id none).users.map GoUser.id).Nodup
    rw [setUserLobby_map_id]
    exact h.usersND
  · show ((st.lobbies.filter _).map GoLobby.id).Nodup
    exact List.Nodup.sublist ((List.filter_sublist _).map GoLobby.id) h.lobbiesND
  · intro l' hl'
    exact h.lobbiesFresh l' (List.mem_filter.mp hl').1
  · intro l' hl'
    have hfl := List.mem_filter.mp hl'
    have hne : l'.id ≠ lobby.id := by
      have := hfl.2
      simp only [Bool.not_eq_true'] at this
      exact beq_eq_false_iff_ne.mp this
    obtain ⟨w, hw, hwid, hwpt⟩ := h.hostMem l' hfl.1
    have hwne : w.id ≠ user.id := by
      intro hcc
      have hwu : w = user :=
        eq_user_of_id_eq h.usersND hu hw (by rw [hcc, findUser_id hu])
      rw [hwu, hcur] at hwpt
      injection hwpt with hpt2
      exact hne (by rw [← hpt2, hlid])
    exact ⟨w, mem_setUserLobby_of_ne hw user.id none hwne, hwid, hwpt⟩
  · intro l' hl'
    exact h.maxRange l' (List.mem_filter.mp hl').1

/-- The host-migration branch of LeaveLobby preserves the invariant. -/
theorem inv_migrate_branch {st : DBState} {uid lid : Nat} {user nextHost : GoUser}
    {lobby : GoLobby} (h : Inv st) (hu : findUser st uid = some user)
    (hcur : user.currentLobbyID = some lid) (hl : findLobby st lid = some lobby)
    (hnh_mem : nextHost ∈ lobbyMembers st lobby.id)
    (hnh_ne : nextHost.id ≠ user.id) :
    Inv (updateLobbyHost (setUserLobby st user.id none) lobby.id nextHost.id) := by
  have hlid : lobby.id = lid := findLobby_id hl
  have hnh := List.mem_filter.mp hnh_mem
  have hnhpt : nextHost.currentLobbyID = some lobby.id := by simpa using hnh.2
  refine ⟨usersNZ_setUserLobby h.usersNZ _ _, ?_, ?_, ?_,
    ptrFresh_setUserLobby h.ptrFresh (fun k hk => Option.noConfusion hk), ?_, ?_⟩
  · show ((setUserLobby st user.id none).users.map GoUser.id).Nodup
    rw [setUserLobby_map_id]
    exact h.usersND
  · show ((updateLobbyHost (setUserLobby st user.id none) lobby.id
      nextHost.id).lobbies.map GoLobby.id).Nodup
    rw [updateLobbyHost_map_id]
    exact h.lobbiesND
  · intro l'' hl''
    obtain ⟨l', hl', heq⟩ := List.mem_map.mp hl''
    by_cases hg : (l'.id == lobby.id) = true
    · rw [if_pos hg] at heq
      rw [← heq]
      exact h.lobbiesFresh l' hl'
    · rw [if_neg hg] at heq
      rw [← heq]
      exact h.lobbiesFresh l' hl'
  · intro l'' hl''
    obtain ⟨l', hl', heq⟩ := List.mem_map.mp hl''
    by_cases hg : (l'.id == lobby.id) = true
    · rw [if_pos hg] at heq
      refine ⟨nextHost, mem_setUserLobby_of_ne hnh.1 user.id none hnh_ne, ?_, ?_⟩
      · rw [← heq]
      · rw [← heq, hnhpt]
        have : l'.id = lobby.id := beq_iff_eq.mp hg
        rw [this]
    · rw [if_neg hg] at heq
      obtain ⟨w, hw, hwid, hwpt⟩ := h.hostMem l' hl'
      have hwne : w.id ≠ user.id := by
        intro hcc
        have hwu : w = user :=
          eq_user_of_id_eq h.usersND hu hw (by rw [hcc, findUser_id hu])
        rw [hwu, hcur] at hwpt
        injection hwpt with hpt2
        apply hg
        rw [← hpt2, hlid]
        exact beq_self_eq_true lid
      refine ⟨w, mem_setUserLobby_of_ne hw user.id none hwne, ?_, ?_⟩
      · rw [← heq]
        exact hwid
      · rw [← heq]
        exact hwpt
  · intro l'' hl''
    obtain ⟨l', hl', heq⟩ := List.mem_map.mp hl''
    by_cases hg : (l'.id == lobby.id) = true
    · rw [if_pos hg] at heq
      rw [← heq]
      exact h.maxRange l' hl'
    · rw [if_neg hg] at heq
      rw [← heq]
      exact h.maxRange l' hl'

/-- LeaveLobby preserves the invariant under every failure oracle. -/
theorem inv_leaveLobby (st : DBState) (uid : Nat) (oracle : Nat → Bool)
    (h : Inv st) : Inv (leaveLobby st uid oracle).state := by
  unfold leaveLobby
  cases hu : findUser st uid with
  | none => exact h
  | some user =>
      simp only
      cases hcur : user.currentLobbyID with
      | none => exact h
      | some lid =>
          simp only
          have huid : user.id = uid := findUser_id hu
          have huNZ : user.id ≠ 0 := h.usersNZ user (findUser_mem hu)
          by_cases ho0 : oracle 0 = true
          · rw [if_pos ho0]
            exact h
          rw [if_neg ho0]
          cases hl : findLobby st lid with
          | none =>
              simp only [Option.getD_none]
              rw [if_neg (by simp)]
              rw [if_neg (by
                show ¬ ((zeroLobby.hostID == user.id) = true)
                intro hcc
                exact huNZ (beq_iff_eq.mp hcc).symm)]
              have hwit : ∀ l ∈ st.lobbies, ∃ u ∈ st.users, u.id = l.hostID ∧
                  u.currentLobbyID = some l.id ∧ u.id ≠ user.id := by
                intro l' hl'
                obtain ⟨w, hw, hwid, hwpt⟩ := h.hostMem l' hl'
                refine ⟨w, hw, hwid, hwpt, ?_⟩
                intro hcc
                have hwu : w = user :=
                  eq_user_of_id_eq h.usersND hu hw (by rw [hcc, huid])
                rw [hwu, hcur] at hwpt
                injection hwpt with hpt2
                have hl'' : st.lobbies.find? (fun l => l.id == lid) = none := hl
                have := List.find?_eq_none.mp hl'' l' hl'
                apply this
                rw [hpt2]
                exact beq_self_eq_true l'.id
              have hcore := inv_setUserLobby_none_of h hwit
              by_cases ho1 : oracle 1 = true
              · rw [if_pos ho1]
                exact hcore
              · rw [if_neg ho1]
                exact inv_appendMessage hcore _
          | some lobby =>
              simp only [Option.getD_some]
              have hlid : lobby.id = lid := findLobby_id hl
              by_cases hc1 : ((lobbyMembers st lobby.id).length == 1 &&
                  (((lobbyMembers st lobby.id).headD zeroUser).id == user.id)) = true
              · rw [if_pos hc1]
                by_cases ho2 : oracle 2 = true
                · rw [if_pos ho2]
                  exact h
                rw [if_neg ho2]
                have hcore := inv_delete_branch h hu hcur hl
                by_cases ho1 : oracle 1 = true
                · rw [if_pos ho1]
                  exact hcore
                · rw [if_neg ho1]
                  exact inv_appendMessage hcore _
              rw [if_neg hc1]
              by_cases hc2 : (lobby.hostID == user.id) = true
              · rw [if_pos hc2]
                cases hfind : (lobbyMembers st lobby.id).find?
                    (fun m => !(m.id == user.id)) with
                | none =>
                    exfalso
                    apply hc1
                    have hall : ∀ m ∈ lobbyMembers st lid, (m.id == uid) = true := by
                      intro m hm
                      have hnone := List.find?_eq_none.mp hfind m
                        (by rw [hlid]; exact hm)
                      simp only [Bool.not_eq_true'] at hnone
                      have htrue : (m.id == user.id) = true := by
                        cases hb : (m.id == user.id)
                        · exact absurd hb hnone
                        · rfl
                      rw [beq_iff_eq.mp htrue, huid]
                      exact beq_self_eq_true uid
                    have hsole := members_all_self h.usersND hu hcur hall
                    rw [hlid, hsole]
                    simp [huid]
                | some nextHost =>
                    simp only [Option.getD_some]
                    have hnhMem : nextHost ∈ lobbyMembers st lobby.id :=
                      List.mem_of_find?_eq_some hfind
                    have hnhNe : nextHost.id ≠ user.id := by
                      have := List.find?_some hfind
                      simp only [Bool.not_eq_true'] at this
                      exact beq_eq_false_iff_ne.mp this
                    have hnhNZ : nextHost.id ≠ 0 := by
                      have hsub : (lobbyMembers st lobby.id).Sublist st.users :=
                        List.filter_sublist _
                      exact h.usersNZ nextHost (hsub.subset hnhMem)
                    rw [if_pos (by simp [hnhNZ])]
                    by_cases ho2 : oracle 2 = true
                    · rw [if_pos ho2]
                      exact h
                    rw [if_neg ho2]
                    have hcore := inv_migrate_branch h hu hcur hl hnhMem hnhNe
                    by_cases ho1 : oracle 1 = true
                    · rw [if_pos ho1]
                      by_cases ho3 : oracle 3 = true
                      · rw [if_pos ho3]
                        exact hcore
                      · rw [if_neg ho3]
                        exact inv_appendMessage hcore _
                    · rw [if_neg ho1]
                      by_cases ho3 : oracle 3 = true
                      · rw [if_pos ho3]
                        exact inv_appendMessage hcore _
                      · rw [if_neg ho3]
                        exact inv_appendMessage (inv_appendMessage hcore _) _
              · rw [if_neg hc2]
                have hwit : ∀ l ∈ st.lobbies, ∃ u ∈ st.users, u.id = l.hostID ∧
                    u.currentLobbyID = some l.id ∧ u.id ≠ user.id := by
                  intro l' hl'
                  obtain ⟨w, hw, hwid, hwpt⟩ := h.hostMem l' hl'
                  refine ⟨w, hw, hwid, hwpt, ?_⟩
                  intro hcc
                  have hwu : w = user :=
                    eq_user_of_id_eq h.usersND hu hw (by rw [hcc, huid])
                  rw [hwu, hcur] at hwpt
                  injection hwpt with hpt2
                  have hleq : l' = lobby :=
                    eq_lobby_of_id_eq h.lobbiesND hl hl' hpt2.symm
                  apply hc2
                  have hht : lobby.hostID = user.id := by
                    calc lobby.hostID = l'.hostID := by rw [hleq]
                      _ = w.id := hwid.symm
                      _ = user.id := by rw [hwu]
                  rw [hht]
                  exact beq_self_eq_true user.id
                have hcore := inv_setUserLobby_none_of h hwit
                by_cases ho1 : oracle 1 = true
                · rw [if_pos ho1]
                  exact hcore
                · rw [if_neg ho1]
                  exact inv_appendMessage hcore _

/-- KickMember preserves the invariant under every failure oracle. -/
theorem inv_kickMember (st : DBState) (hostID lobbyID targetID : Nat)
    (oracle : Nat → Bool) (h : Inv st) :
    Inv (kickMember st hostID lobbyID targetID oracle).state := by
  unfold kickMember
  cases hl : findLobby st lobbyID with
  | none => exact h
  | some lobby =>
      simp only
      by_cases hg1 : (!(lobby.hostID == hostID)) = true
      · rw [if_pos hg1]
        exact h
      rw [if_neg hg1]
      by_cases hg2 : (lobby.hostID == targetID) = true
      · rw [if_pos hg2]
        exact h
      rw [if_neg hg2]
      cases hfind : st.users.find?
          (fun u => u.id == targetID && u.currentLobbyID == some lobbyID) with
      | none => exact h
      | some member =>
          simp only
          have hfacts := List.find?_some hfind
          rw [Bool.and_eq_true] at hfacts
          have hmid : member.id = targetID := beq_iff_eq.mp hfacts.1
          have hmpt : member.currentLobbyID = some lobbyID := by
            simpa using hfacts.2
          have hmmem : member ∈ st.users := List.mem_of_find?_eq_some hfind
          have hlid : lobby.id = lobbyID := findLobby_id hl
          have hcore : Inv (if oracle 0 = true then st
              else setUserLobby st member.id none) := by
            by_cases ho0 : oracle 0 = true
            · rw [if_pos ho0]
              exact h
            rw [if_neg ho0]
            refine inv_setUserLobby_none_of h ?_
            intro l' hl'
            obtain ⟨w, hw, hwid, hwpt⟩ := h.hostMem l' hl'
            refine ⟨w, hw, hwid, hwpt, ?_⟩
            intro hcc
            have hwm : w = member := List.inj_on_of_nodup_map h.usersND hw hmmem hcc
            rw [hwm, hmpt] at hwpt
            injection hwpt with hpt2
            have hleq : l' = lobby := eq_lobby_of_id_eq h.lobbiesND hl hl'
              (by rw [hpt2])
            apply hg2
            have hht : lobby.hostID = targetID := by
              calc lobby.hostID = l'.hostID := by rw [hleq]
                _ = w.id := hwid.symm
                _ = member.id := by rw [hwm]
                _ = targetID := hmid
            rw [hht]
            exact beq_self_eq_true targetID
          by_cases ho1 : oracle 1 = true
          · rw [if_pos ho1]
            exact hcore
          · rw [if_neg ho1]
            exact inv_appendMessage hcore _

/-- DB.Save of a row with the looked-up lobby's key and its host preserves
the invariant as soon as the new max_players lies in the validated range. -/
theorem inv_saveLobby (st : DBState) {lid : Nat} {lobby : GoLobby}
    (h : Inv st) (hl : findLobby st lid = some lobby) (l1 : GoLobby)
    (hid1 : l1.id = lobby.id) (hhost1 : l1.hostID = lobby.hostID)
    (hrange1 : 2 ≤ l1.maxPlayers ∧ l1.maxPlayers ≤ 10) :
    Inv (saveLobby st l1) := by
  refine ⟨h.usersNZ, h.usersND, ?_, ?_, h.ptrFresh, ?_, ?_⟩
  · show ((saveLobby st l1).lobbies.map GoLobby.id).Nodup
    rw [saveLobby_map_id]
    exact h.lobbiesND
  · intro l'' hl''
    obtain ⟨l', hl', heq⟩ := List.mem_map.mp hl''
    by_cases hg : (l'.id == l1.id) = true
    · rw [if_pos hg] at heq
      rw [← heq]
      show l1.id < st.nextLobbyID
      rw [hid1, findLobby_id hl]
      have := h.lobbiesFresh l' hl'
      rw [beq_iff_eq.mp hg, hid1, findLobby_id hl] at this
      exact this
    · rw [if_neg hg] at heq
      rw [← heq]
      exact h.lobbiesFresh l' hl'
  · intro l'' hl''
    obtain ⟨l', hl', heq⟩ := List.mem_map.mp hl''
    by_cases hg : (l'.id == l1.id) = true
    · rw [if_pos hg] at heq
      have hleq : l' = lobby := eq_lobby_of_id_eq h.lobbiesND hl hl'
        (by rw [beq_iff_eq.mp hg, hid1, findLobby_id hl])
      obtain ⟨w, hw, hwid, hwpt⟩ := h.hostMem lobby (findLobby_mem hl)
      refine ⟨w, hw, ?_, ?_⟩
      · rw [← heq, hhost1]
        exact hwid
      · rw [← heq, hid1]
        exact hwpt
    · rw [if_neg hg] at heq
      obtain ⟨w, hw, hwid, hwpt⟩ := h.hostMem l' hl'
      refine ⟨w, hw, ?_, ?_⟩
      · rw [← heq]
        exact hwid
      · rw [← heq]
        exact hwpt
  · intro l'' hl''
    obtain ⟨l', hl', heq⟩ := List.mem_map.mp hl''
    by_cases hg : (l'.id == l1.id) = true
    · rw [if_pos hg] at heq
      rw [← heq]
      exact hrange1
    · rw [if_neg hg] at heq
      rw [← heq]
      exact h.maxRange l' hl'

/-- UpdateLobby preserves the invariant under every failure oracle. -/
theorem inv_updateLobby (st : DBState) (uid lid : Nat) (raw : RawLobbyInput)
    (oracle : Nat → Bool) (h : Inv st) :
    Inv (updateLobby st uid lid raw oracle).state := by
  unfold updateLobby
  cases hl : findLobby st lid with
  | none => exact h
  | some lobby =>
      simp only
      by_cases hg : (!(lobby.hostID == uid)) = true
      · rw [if_pos hg]
        exact h
      rw [if_neg hg]
      cases hbind : bindLobbyInput raw with
      | none => exact h
      | some input =>
          simp only
          obtain ⟨_, hrange⟩ := bindLobbyInput_ok hbind
          have hcore : Inv (if oracle 0 = true then st
              else saveLobby st { lobby with description := input.description, maxPlayers := input.maxPlayers, gameID := input.gameID }) := by
            by_cases ho0 : oracle 0 = true
            · rw [if_pos ho0]
              exact h
            · rw [if_neg ho0]
              exact inv_saveLobby st h hl _ rfl rfl hrange
          by_cases ho0 : oracle 0 = true
          case pos =>
            rw [if_pos ho0]
            rw [if_pos ho0] at hcore
            by_cases ho1 : oracle 1 = true
            · rw [if_pos ho1]
              split
              · exact hcore
              · exact hcore
            · rw [if_neg ho1]
              split
              · exact inv_appendMessage hcore _
              · exact hcore
          case neg =>
            rw [if_neg ho0]
            rw [if_neg ho0] at hcore
            by_cases ho1 : oracle 1 = true
            · rw [if_pos ho1]
              split
              · exact hcore
              · exact hcore
            · rw [if_neg ho1]
              split
              · exact inv_appendMessage hcore _
              · exact hcore

/-- Every public transition preserves the invariant. -/
theorem inv_applyOp (st : DBState) (op : Op) (oracle : Nat → Bool) (h : Inv st) :
    Inv (applyOp st op oracle) := by
  cases op with
  | create uid raw => exact inv_createLobby st uid raw oracle h
  | join uid lid => exact inv_joinLobby st uid lid oracle h
  | leave uid => exact inv_leaveLobby st uid oracle h
  | kick hid lid tid => exact inv_kickMember st hid lid tid oracle h
  | update hid lid raw => exact inv_updateLobby st hid lid raw oracle h

/-- Every reachable state satisfies the invariant. -/
theorem reachable_inv {st : DBState} (h : Reachable st) : Inv st := by
  induction h with
  | init users games hfree hnz hnd =>
      refine ⟨hnz, hnd, List.nodup_nil, ?_, ?_, ?_, ?_⟩
      · intro l hl
        exact absurd hl (List.not_mem_nil l)
      · intro u hu k hk
        rw [hfree u hu] at hk
        cases hk
      · intro l hl
        exact absurd hl (List.not_mem_nil l)
      · intro l hl
        exact absurd hl (List.not_mem_nil l)
  | step st op oracle _ ih => exact inv_applyOp st op oracle ih

/-- A membership update that does not point at an existing lobby preserves
the capacity bound. -/
theorem capOK_setUserLobby_away {st : DBState} (hcap : CapOK st)
    (uid : Nat) (v : Option Nat) (hv : ∀ l ∈ st.lobbies, v ≠ some l.id) :
    CapOK (setUserLobby st uid v) := by
  intro l' hl'
  have hle := countP_setUserLobby_le st uid v l'.id (hv l' hl')
  have h1 : (lobbyMembers (setUserLobby st uid v) l'.id).length ≤
      (lobbyMembers st l'.id).length := by
    rw [members_length_eq_countP, members_length_eq_countP]
    exact hle
  calc ((lobbyMembers (setUserLobby st uid v) l'.id).length : Int)
      ≤ ((lobbyMembers st l'.id).length : Int) := by exact_mod_cast h1
    _ ≤ l'.maxPlayers := hcap l' hl'

/-- Deleting a lobby preserves the capacity bound. -/
theorem capOK_deleteLobby {st : DBState} (hcap : CapOK st) (lid : Nat) :
    CapOK (deleteLobby st lid) := by
  intro l' hl'
  exact hcap l' (List.mem_filter.mp hl').1

/-- Rewriting a host reference preserves the capacity bound. -/
theorem capOK_updateLobbyHost {st : DBState} (hcap : CapOK st) (lid hid : Nat) :
    CapOK (updateLobbyHost st lid hid) := by
  intro l'' hl''
  obtain ⟨l', hl', heq⟩ := List.mem_map.mp hl''
  by_cases hg : (l'.id == lid) = true
  · rw [if_pos hg] at heq
    rw [← heq]
    exact hcap l' hl'
  · rw [if_neg hg] at heq
    rw [← heq]
    exact hcap l' hl'

/-- JoinLobby preserves the capacity bound: the one successful write adds a
member only below capacity. -/
theorem capOK_joinLobby (st : DBState) (uid lid : Nat) (oracle : Nat → Bool)
    (h : Inv st) (hcap : CapOK st) : CapOK (joinLobby st uid lid oracle).state := by
  unfold joinLobby
  cases hv : joinValidate st uid lid with
  | error e => exact hcap
  | ok pr =>
      obtain ⟨user, lobby⟩ := pr
      obtain ⟨hgetD, hfree, hl, hlt⟩ := joinValidate_ok hv
      show CapOK (joinCommit st user lobby oracle).state
      unfold joinCommit
      dsimp only
      have hcore : CapOK (if oracle 0 = true then st
          else setUserLobby st user.id (some lobby.id)) := by
        by_cases ho : oracle 0 = true
        · rw [if_pos ho]
          exact hcap
        rw [if_neg ho]
        cases hu0 : findUser st uid with
        | none =>
            rw [hu0] at hgetD
            simp only [Option.getD_none] at hgetD
            have habs : ∀ u ∈ st.users, u.id ≠ user.id := by
              intro u hu2 hcc
              apply h.usersNZ u hu2
              rw [hcc, ← hgetD]
              rfl
            intro l' hl'
            have husers := setUserLobby_users_of_absent habs (some lobby.id)
            have hmm : lobbyMembers (setUserLobby st user.id (some lobby.id)) l'.id =
                lobbyMembers st l'.id := by
              unfold lobbyMembers
              rw [husers]
            rw [hmm]
            exact hcap l' hl'
        | some u =>
            rw [hu0] at hgetD
            simp only [Option.getD_some] at hgetD
            subst hgetD
            intro l' hl'
            by_cases hid' : l'.id = lobby.id
            · have hleq : l' = lobby := eq_lobby_of_id_eq h.lobbiesND hl hl'
                (by rw [hid', findLobby_id hl])
              have hlen : (lobbyMembers (setUserLobby st u.id (some lobby.id))
                  lobby.id).length = (lobbyMembers st lobby.id).length + 1 := by
                rw [members_length_eq_countP, members_length_eq_countP]
                exact countP_update_first st.nextSeq u.id lobby.id h.usersND
                  (findUser_mem hu0) rfl (by rw [hfree]; exact fun hcc => Option.noConfusion hcc)
              rw [hid', hlen]
              rw [hleq]
              have := hlt
              push_cast
              omega
            · have hle := countP_setUserLobby_le st u.id (some lobby.id) l'.id
                (by intro hcc; injection hcc with hcc2; exact hid' hcc2.symm)
              have h1 : (lobbyMembers (setUserLobby st u.id (some lobby.id))
                  l'.id).length ≤ (lobbyMembers st l'.id).length := by
                rw [members_length_eq_countP, members_length_eq_countP]
                exact hle
              calc ((lobbyMembers (setUserLobby st u.id (some lobby.id))
                  l'.id).length : Int)
                  ≤ ((lobbyMembers st l'.id).length : Int) := by exact_mod_cast h1
                _ ≤ l'.maxPlayers := hcap l' hl'
      by_cases ho1 : oracle 1 = true
      · rw [if_pos ho1]
        exact hcore
      · rw [if_neg ho1]
        exact capOK_appendMessage hcore _

/-- CreateLobby preserves the capacity bound: the fresh lobby starts with
one member and a capacity of at least two. -/
theorem capOK_createLobby (st : DBState) (uid : Nat) (raw : RawLobbyInput)
    (oracle : Nat → Bool) (h : Inv st) (hcap : CapOK st) :
    CapOK (createLobby st uid raw oracle).state := by
  unfold createLobby
  cases hu : findUser st uid with
  | none => exact hcap
  | some user =>
      simp only
      by_cases hsome : user.currentLobbyID.isSome = true
      · rw [if_pos hsome]
        exact hcap
      rw [if_neg hsome]
      have hfree : user.currentLobbyID = none := Option.not_isSome_iff_eq_none.mp hsome
      cases hbind : bindLobbyInput raw with
      | none => exact hcap
      | some input =>
          simp only
          by_cases ho0 : oracle 0 = true
          · rw [if_pos ho0]
            exact hcap
          rw [if_neg ho0]
          by_cases ho1 : oracle 1 = true
          · rw [if_pos ho1]
            exact hcap
          rw [if_neg ho1]
          simp only
          obtain ⟨_, hrange⟩ := bindLobbyInput_ok hbind
          have hcore : CapOK (setUserLobby
              { st with
                  lobbies := st.lobbies ++
                    [{ id := st.nextLobbyID, gameID := input.gameID, hostID := user.id, title := "", description := input.description, maxPlayers := input.maxPlayers }],
                  nextLobbyID := st.nextLobbyID + 1 }
              user.id (some st.nextLobbyID)) := by
            set newLobby : GoLobby := { id := st.nextLobbyID, gameID := input.gameID, hostID := user.id, title := "", description := input.description, maxPlayers := input.maxPlayers } with hnew
            set st1 : DBState := { st with lobbies := st.lobbies ++ [newLobby], nextLobbyID := st.nextLobbyID + 1 } with hst1
            intro l' hl'
            have hl'cases : l' ∈ st.lobbies ∨ l' = newLobby := by
              rcases List.mem_append.mp hl' with hcase | hcase
              · exact Or.inl hcase
              · exact Or.inr (List.mem_singleton.mp hcase)
            rcases hl'cases with hold | hnewl
            · have hne : some st.nextLobbyID ≠ some l'.id := by
                intro hcc
                injection hcc with hcc2
                have := h.lobbiesFresh l' hold
                omega
              have hle := countP_setUserLobby_le st1 user.id (some st.nextLobbyID)
                l'.id hne
              have h1 : (lobbyMembers (setUserLobby st1 user.id
                  (some st.nextLobbyID)) l'.id).length ≤
                  (lobbyMembers st1 l'.id).length := by
                rw [members_length_eq_countP, members_length_eq_countP]
                exact hle
              have h2 : lobbyMembers st1 l'.id = lobbyMembers st l'.id := rfl
              calc ((lobbyMembers (setUserLobby st1 user.id
                  (some st.nextLobbyID)) l'.id).length : Int)
                  ≤ ((lobbyMembers st1 l'.id).length : Int) := by exact_mod_cast h1
                _ = ((lobbyMembers st l'.id).length : Int) := by rw [h2]
                _ ≤ l'.maxPlayers := hcap l' hold
            · have hu1 : findUser st1 uid = some user := hu
              have hcnt : (lobbyMembers (setUserLobby st1 user.id
                  (some st.nextLobbyID)) st.nextLobbyID).length =
                  (lobbyMembers st1 st.nextLobbyID).length + 1 := by
                rw [members_length_eq_countP, members_length_eq_countP]
                exact countP_update_first st1.nextSeq user.id st.nextLobbyID
                  h.usersND (findUser_mem hu1) rfl
                  (by rw [hfree]; exact fun hcc => Option.noConfusion hcc)
              have hzero : (lobbyMembers st1 st.nextLobbyID).length = 0 := by
                rw [members_length_eq_countP]
                have : st1.users.countP
                    (fun u => u.currentLobbyID == some st.nextLobbyID) =
                    st.users.countP
                    (fun u => u.currentLobbyID == some st.nextLobbyID) := rfl
                rw [this]
                exact countP_fresh_eq_zero st h.ptrFresh
              rw [hnewl]
              show ((lobbyMembers (setUserLobby st1 user.id (some st.nextLobbyID))
                newLobby.id).length : Int) ≤ newLobby.maxPlayers
              have hnid : newLobby.id = st.nextLobbyID := rfl
              rw [hnid, hcnt, hzero]
              show ((0 + 1 : Nat) : Int) ≤ input.maxPlayers
              push_cast
              omega
          by_cases ho2 : oracle 2 = true
          · rw [if_pos ho2]
            exact hcore
          · rw [if_neg ho2]
            exact capOK_appendMessage hcore _

/-- LeaveLobby preserves the capacity bound: it only removes a member, and
possibly deletes the lobby or rewrites its host reference. -/
theorem capOK_leaveLobby (st : DBState) (uid : Nat) (oracle : Nat → Bool)
    (hcap : CapOK st) : CapOK (leaveLobby st uid oracle).state := by
  have hnone : ∀ (st2 : DBState), ∀ l ∈ st2.lobbies,
      (none : Option Nat) ≠ some l.id := by
    intro st2 l _ hcc
    exact Option.noConfusion hcc
  unfold leaveLobby
  cases hu : findUser st uid with
  | none => exact hcap
  | some user =>
      simp only
      cases hcur : user.currentLobbyID with
      | none => exact hcap
      | some lid =>
          simp only
          by_cases ho0 : oracle 0 = true
          · rw [if_pos ho0]
            exact hcap
          rw [if_neg ho0]
          have hclear : CapOK (setUserLobby st user.id none) :=
            capOK_setUserLobby_away hcap user.id none (hnone st)
          have hst2 : ∀ (b : Bool) (m : GoMessage),
              CapOK (if b = true then setUserLobby st user.id none
                else appendMessage (setUserLobby st user.id none) m) := by
            intro b m
            by_cases hb : b = true
            · rw [if_pos hb]
              exact hclear
            · rw [if_neg hb]
              exact capOK_appendMessage hclear m
          cases hl : findLobby st lid with
          | none =>
              simp only [Option.getD_none]
              rw [if_neg (by simp)]
              by_cases hzc : ((zeroLobby.hostID == user.id) = true)
              · rw [if_pos hzc]
                cases hfind : (List.nil (α := GoUser)).find?
                    (fun m => !(m.id == user.id)) with
                | none =>
                    simp only [Option.getD_none]
                    rw [if_neg (by simp [zeroUser])]
                    exact hst2 (oracle 1) _
                | some m0 =>
                    exact absurd hfind (by simp)
              · rw [if_neg hzc]
                exact hst2 (oracle 1) _
          | some lobby =>
              simp only [Option.getD_some]
              by_cases hc1 : ((lobbyMembers st lobby.id).length == 1 &&
                  (((lobbyMembers st lobby.id).headD zeroUser).id == user.id)) = true
              · rw [if_pos hc1]
                by_cases ho2 : oracle 2 = true
                · rw [if_pos ho2]
                  exact hcap
                rw [if_neg ho2]
                by_cases ho1 : oracle 1 = true
                · rw [if_pos ho1]
                  exact capOK_deleteLobby hclear lobby.id
                · rw [if_neg ho1]
                  exact capOK_deleteLobby (capOK_appendMessage hclear _) lobby.id
              rw [if_neg hc1]
              by_cases hc2 : (lobby.hostID == user.id) = true
              · rw [if_pos hc2]
                cases hfind : (lobbyMembers st lobby.id).find?
                    (fun m => !(m.id == user.id)) with
                | none =>
                    simp only [Option.getD_none]
                    rw [if_neg (by simp [zeroUser])]
                    exact hst2 (oracle 1) _
                | some nextHost =>
                    simp only [Option.getD_some]
                    by_cases hnz : (!(nextHost.id == 0)) = true
                    · rw [if_pos hnz]
                      by_cases ho2 : oracle 2 = true
                      · rw [if_pos ho2]
                        exact hcap
                      rw [if_neg ho2]
                      by_cases ho1 : oracle 1 = true
                      · rw [if_pos ho1]
                        by_cases ho3 : oracle 3 = true
                        · rw [if_pos ho3]
                          exact capOK_updateLobbyHost hclear lobby.id nextHost.id
                        · rw [if_neg ho3]
                          exact capOK_appendMessage
                            (capOK_updateLobbyHost hclear lobby.id nextHost.id) _
                      · rw [if_neg ho1]
                        by_cases ho3 : oracle 3 = true
                        · rw [if_pos ho3]
                          exact capOK_updateLobbyHost
                            (capOK_appendMessage hclear _) lobby.id nextHost.id
                        · rw [if_neg ho3]
                          exact capOK_appendMessage (capOK_updateLobbyHost
                            (capOK_appendMessage hclear _) lobby.id nextHost.id) _
                    · rw [if_neg hnz]
                      exact hst2 (oracle 1) _
              · rw [if_neg hc2]
                exact hst2 (oracle 1) _

/-- KickMember preserves the capacity bound: it only removes a member. -/
theorem capOK_kickMember (st : DBState) (hostID lobbyID targetID : Nat)
    (oracle : Nat → Bool) (hcap : CapOK st) :
    CapOK (kickMember st hostID lobbyID targetID oracle).state := by
  unfold kickMember
  cases hl : findLobby st lobbyID with
  | none => exact hcap
  | some lobby =>
      simp only
      by_cases hg1 : (!(lobby.hostID == hostID)) = true
      · rw [if_pos hg1]
        exact hcap
      rw [if_neg hg1]
      by_cases hg2 : (lobby.hostID == targetID) = true
      · rw [if_pos hg2]
        exact hcap
      rw [if_neg hg2]
      cases hfind : st.users.find?
          (fun u => u.id == targetID && u.currentLobbyID == some lobbyID) with
      | none => exact hcap
      | some member =>
          simp only
          have hcore : CapOK (if oracle 0 = true then st
              else setUserLobby st member.id none) := by
            by_cases ho0 : oracle 0 = true
            · rw [if_pos ho0]
              exact hcap
            · rw [if_neg ho0]
              refine capOK_setUserLobby_away hcap member.id none ?_
              intro l _ hcc
              exact Option.noConfusion hcc
          by_cases ho1 : oracle 1 = true
          · rw [if_pos ho1]
            exact hcore
          · rw [if_neg ho1]
            exact capOK_appendMessage hcore _

/-- Every public transition other than UpdateLobby preserves the
capacity bound. -/
theorem capOK_applyOp (st : DBState) (op : Op) (oracle : Nat → Bool)
    (h : Inv st) (hcap : CapOK st) (hnu : op.isUpdate = false) :
    CapOK (applyOp st op oracle) := by
  cases op with
  | create uid raw => exact capOK_createLobby st uid raw oracle h hcap
  | join uid lid => exact capOK_joinLobby st uid lid oracle h hcap
  | leave uid => exact capOK_leaveLobby st uid oracle hcap
  | kick hid lid tid => exact capOK_kickMember st hid lid tid oracle hcap
  | update hid lid raw => exact Bool.noConfusion hnu

/-- A request whose max_players is absent or out of the 2..10 range fails
the gin binding (required,min=2,max=10). -/
theorem bindLobbyInput_none_of_bad_max {raw : RawLobbyInput}
    (h : ¬ (2 ≤ raw.maxPlayers.getD 0 ∧ raw.maxPlayers.getD 0 ≤ 10)) :
    bindLobbyInput raw = none := by
  unfold bindLobbyInput
  dsimp only
  rw [if_neg (fun hc => h ⟨hc.2.1, hc.2.2⟩)]

/-- C2 (amended): in every reachable state every existing lobby's host is
one of its members, and the non-update transitions — CreateLobby,
JoinLobby, LeaveLobby, KickMember — all preserve the |members| ≤ maxPlayers
bound; UpdateLobby is the one public operation that does not preserve it
(see the counterexample theorem). -/
theorem c2_invariants_amended :
    (∀ st, Reachable st → HostMember st) ∧
    (∀ st op oracle, Reachable st → op.isUpdate = false → CapOK st →
      CapOK (applyOp st op oracle)) :=
  ⟨fun st h => (reachable_inv h).hostMem,
   fun st op oracle h hnu hcap =>
     capOK_applyOp st op oracle (reachable_inv h) hcap hnu⟩

/-- C2 witness: the reachable two-member state c2Step2 satisfies the host
invariant, and user C's join — a non-update operation — preserves the
capacity bound from it. -/
theorem c2_witness :
    HostMember c2Step2 ∧ CapOK (applyOp c2Step2 (Op.join 3 1) noFail) := by
  have h0 : Reachable demoInit :=
    Reachable.init _ _ (by decide) (by decide) (by decide)
  have h1 : Reachable c2Step1 :=
    Reachable.step demoInit (.create 1 (demoRaw 10)) noFail h0
  have h2 : Reachable c2Step2 :=
    Reachable.step c2Step1 (.join 2 1) noFail h1
  refine ⟨c2_invariants_amended.1 c2Step2 h2,
    c2_invariants_amended.2 c2Step2 (Op.join 3 1) noFail h2 rfl ?_⟩
  unfold CapOK lobbyMembers
  decide

/-- C10 (amended): a CreateLobby or UpdateLobby request whose max_players
is absent, below 2 or above 10 never creates or modifies a lobby and is
always rejected; when no earlier check rejects the request first (for
Create: the caller exists and is not already in a lobby; for Update: the
lobby exists and the caller is its host) the rejection is exactly the
ValidationError (HTTP 400); consequently every lobby of every reachable
state has 2 ≤ maxPlayers ≤ 10, so no lobby with maxPlayers = 1 can be
constructed through the public interface. -/
theorem c10_max_players_validation :
    (∀ st uid raw oracle,
      ¬ (2 ≤ raw.maxPlayers.getD 0 ∧ raw.maxPlayers.getD 0 ≤ 10) →
      (createLobby st uid raw oracle).result.status ≠ HStatus.created ∧
      (createLobby st uid raw oracle).state = st) ∧
    (∀ st uid lid raw oracle,
      ¬ (2 ≤ raw.maxPlayers.getD 0 ∧ raw.maxPlayers.getD 0 ≤ 10) →
      (updateLobby st uid lid raw oracle).result.status ≠ HStatus.ok ∧
      (updateLobby st uid lid raw oracle).state = st) ∧
    (∀ st uid raw oracle user, findUser st uid = some user →
      user.currentLobbyID = none →
      ¬ (2 ≤ raw.maxPlayers.getD 0 ∧ raw.maxPlayers.getD 0 ≤ 10) →
      (createLobby st uid raw oracle).result.status = HStatus.validationError) ∧
    (∀ st uid lid raw oracle lobby, findLobby st lid = some lobby →
      lobby.hostID = uid →
      ¬ (2 ≤ raw.maxPlayers.getD 0 ∧ raw.maxPlayers.getD 0 ≤ 10) →
      (updateLobby st uid lid raw oracle).result.status = HStatus.validationError) ∧
    (∀ st, Reachable st → MaxInRange st) := by
  refine ⟨?_, ?_, ?_, ?_, fun st h => (reachable_inv h).maxRange⟩
  · intro st uid raw oracle hbad
    have hb := bindLobbyInput_none_of_bad_max hbad
    unfold createLobby
    cases hu : findUser st uid with
    | none => exact ⟨by simp, rfl⟩
    | some user =>
        simp only
        by_cases hsome : user.currentLobbyID.isSome = true
        · rw [if_pos hsome]
          exact ⟨by simp, rfl⟩
        · rw [if_neg hsome, hb]
          exact ⟨by simp, rfl⟩
  · intro st uid lid raw oracle hbad
    have hb := bindLobbyInput_none_of_bad_max hbad
    unfold updateLobby
    cases hl : findLobby st lid with
    | none => exact ⟨by simp, rfl⟩
    | some lobby =>
        simp only
        by_cases hg : (!(lobby.hostID == uid)) = true
        · rw [if_pos hg]
          exact ⟨by simp, rfl⟩
        · rw [if_neg hg, hb]
          exact ⟨by simp, rfl⟩
  · intro st uid raw oracle user hu hfree hbad
    have hb := bindLobbyInput_none_of_bad_max hbad
    unfold createLobby
    rw [hu]
    simp only
    rw [if_neg (by rw [hfree]; exact fun hcc => Bool.noConfusion (Option.isSome_none ▸ hcc)), hb]
  · intro st uid lid raw oracle lobby hl hhost hbad
    have hb := bindLobbyInput_none_of_bad_max hbad
    unfold updateLobby
    rw [hl]
    simp only
    rw [if_neg (by rw [hhost]; simp), hb]

/-- C10 witness: a create request with max_players 1 from free user A is
rejected with the ValidationError, and the reachable state c2Step1 keeps
every lobby capacity in the 2..10 range. -/
theorem c10_witness :
    (createLobby demoInit 1 (demoRaw 1) noFail).result.status =
      HStatus.validationError ∧
    MaxInRange c2Step1 := by
  have h0 : Reachable demoInit :=
    Reachable.init _ _ (by decide) (by decide) (by decide)
  have h1 : Reachable c2Step1 :=
    Reachable.step demoInit (.create 1 (demoRaw 10)) noFail h0
  exact ⟨c10_max_players_validation.2.2.1 demoInit 1 (demoRaw 1) noFail _ rfl rfl
      (by decide),
    c10_max_players_validation.2.2.2.2 c2Step1 h1⟩

/-- C1: the claim fails on the code.  JoinLobby(user 2, lobby 1) with the
persistence layer failing the current_lobby_id update — whose error return
user_handler.go line 1101 discards — leaves the membership state untouched
(the transition did not commit), yet the handler answers 200, appends the
"joined" system message and broadcasts user_joined.  The claim says a
transition that fails a persistence step emits no event and appends no
system message. -/
theorem c1_failed_write_still_emits :
    c1Out.result.status = HStatus.ok ∧
    c1Out.state.users = c1St.users ∧
    c1Out.events = [{ type := "user_joined", payload := "user:B" }] ∧
    c1Out.state.messages = c1St.messages ++
      [{ lobbyID := 1, userID := none, type := .system,
         content := "User B joined the lobby." }] :=
  ⟨rfl, rfl, rfl, rfl⟩

/-- C3: the claim fails on the code.  Lobby 1 has max_players 2 and one
member (one free slot).  JoinLobby performs its capacity check and its
membership update as two separate uncoordinated database calls with no
lock, transaction, or commit-time re-validation, so two interleaved calls
that both validate before either writes both succeed: users 2 and 1 both
pass the check against the same state, both writes then commit, and the
lobby ends with 3 members in a 2-capacity lobby, instead of exactly one
success. -/
theorem c3_concurrent_joins_both_succeed :
    joinValidate c3St 2 1 = .ok (c3UserB, c3Lobby) ∧
    joinValidate c3St 1 1 = .ok (c3UserA, c3Lobby) ∧
    (joinCommit c3St c3UserB c3Lobby noFail).result.status = HStatus.ok ∧
    (joinCommit c3AfterB c3UserA c3Lobby noFail).result.status = HStatus.ok ∧
    (lobbyMembers c3Final 1).length = 3 ∧
    c3Lobby.maxPlayers = 2 :=
  ⟨rfl, rfl, rfl, rfl, rfl, rfl⟩

/-- C2: counterexample.  A reachable state (create with max_players 10,
two joins, then an UpdateLobby by the host lowering max_players to 2)
contains a lobby with 3 members and capacity 2: the claimed invariant
|members| ≤ maxPlayers is not preserved by every public operation —
UpdateLobby breaks it. -/
theorem c2_counterexample :
    Reachable c2Final ∧
    (updateLobby c2Step3 1 1 (demoRaw 2) noFail).result.status = HStatus.ok ∧
    findLobby c2Final 1 =
      some { id := 1, gameID := 5, hostID := 1, title := "",
             description := "fun", maxPlayers := 2 } ∧
    (lobbyMembers c2Final 1).length = 3 := by
  refine ⟨?_, rfl, rfl, rfl⟩
  have h0 : Reachable demoInit :=
    Reachable.init _ _ (by decide) (by decide) (by decide)
  have h1 : Reachable c2Step1 :=
    Reachable.step demoInit (.create 1 (demoRaw 10)) noFail h0
  have h2 : Reachable c2Step2 :=
    Reachable.step c2Step1 (.join 2 1) noFail h1
  have h3 : Reachable c2Step3 :=
    Reachable.step c2Step2 (.join 3 1) noFail h2
  exact Reachable.step c2Step3 (.update 1 1 (demoRaw 2)) noFail h3

/-- C4: counterexample.  In the reachable over-capacity state of the C2
counterexample (3 members, max_players 2), JoinLobby by user 4 fails with
the full conflict although the member count does not equal max_players:
the code rejects when len(members) >= MaxPlayers, not exactly at equality. -/
theorem c4_counterexample :
    (joinLobby c2Final 4 1 noFail).result =
      { status := HStatus.conflict, message := "Lobby is full" } ∧
    (findLobby c2Final 1).map GoLobby.maxPlayers = some 2 ∧
    ((lobbyMembers c2Final 1).length : Int) ≠ 2 :=
  ⟨rfl, rfl, by decide⟩

/-- C5: counterexample.  C created lobby 1, then B joined, then A joined,
so the earliest-joined remaining member when host C leaves is B (id 2);
but the code promotes the first member in table (primary-key) order, which
is A (id 1).  The promoted host is not the earliest-joined remaining
member. -/
theorem c5_counterexample :
    (earliestJoinedRemaining c5Pre 1 3).map GoUser.id = some 2 ∧
    c5Out.result.status = HStatus.ok ∧
    (findLobby c5Out.state 1).map GoLobby.hostID = some 1 ∧
    ¬ ((findLobby c5Out.state 1).map GoLobby.hostID =
        (earliestJoinedRemaining c5Pre 1 3).map GoUser.id) :=
  ⟨rfl, rfl, rfl, by decide⟩

/-- C10: counterexample.  A CreateLobby request with max_players 1 (below
the validated minimum 2) from user 3, who is already in a lobby, is
rejected with the already-in-a-lobby Conflict (409), not with a
ValidationError (400): CreateLobby checks the current-lobby conflict
before binding the input, so not every request with an invalid
max_players yields HTTP 400. -/
theorem c10_counterexample :
    bindLobbyInput (demoRaw 1) = none ∧
    (createLobby c1St 3 (demoRaw 1) noFail).result =
      { status := HStatus.conflict, message := "User is already in a lobby" } ∧
    (createLobby c1St 3 (demoRaw 1) noFail).result.status ≠ HStatus.validationError :=
  ⟨rfl, rfl, by decide⟩

end PlayMatch